import Mathlib

/-!
Verification of the ledger/aggregate core of the Savior_Be personal-finance
backend.  The Rust handlers in src/routes/transaksi.rs and
src/routes/statistik.rs are embedded shallowly: the database is an explicit
pure state (lists of rows), each handler is a pure function from state and
request to an `Except`/`Option` result, SQL statements are translated
one-for-one into list operations, and chrono calendar dates are modelled as
absolute day counts with explicit civil-date conversion.  `Local::now()` is
passed in as an explicit `today` parameter.  An `Option` result of `none` on
the statistics path models the `unwrap()` panic in the Rust code.  Machine
integers (`i32`/`i64`) are modelled as unbounded `Int` (no claim here exercises
overflow), SQL `FLOAT8` values as exact rationals, and UUIDs as strings
(UUID syntax validation is not load-bearing for any claim).
-/

namespace Savior

/-! Calendar dates.  chrono `NaiveDate` is modelled by its absolute day number
(days since 1970-01-01), with Howard Hinnant's civil-from-days / days-from-civil
conversions.  chrono's finite year range — `MIN_YEAR = i32::MIN >> 13 =
-262144` through `MAX_YEAR = i32::MAX >> 13 = 262143`, outside of which
`from_ymd_opt` returns `None` — is modelled explicitly. -/

structure Date where
  days : Int
deriving DecidableEq

def isLeap (y : Int) : Bool :=
  (y % 4 == 0 && y % 100 != 0) || y % 400 == 0

def daysInMonth (y : Int) (m : Nat) : Nat :=
  if m == 2 then (if isLeap y then 29 else 28)
  else if m == 4 || m == 6 || m == 9 || m == 11 then 30
  else 31

def daysFromCivil (y : Int) (m : Nat) (d : Nat) : Int :=
  let yAdj : Int := if m ≤ 2 then y - 1 else y
  let era : Int := Int.fdiv yAdj 400
  let yoe : Int := yAdj - era * 400
  let mp : Int := (Int.ofNat m + 9) % 12
  let doy : Int := (153 * mp + 2) / 5 + Int.ofNat d - 1
  let doe : Int := yoe * 365 + yoe / 4 - yoe / 100 + doy
  era * 146097 + doe - 719468

def civilFromDays (z0 : Int) : Int × Int × Int :=
  let z := z0 + 719468
  let era : Int := Int.fdiv z 146097
  let doe : Int := z - era * 146097
  let yoe : Int := (doe - doe / 1460 + doe / 36524 - doe / 146096) / 365
  let y : Int := yoe + era * 400
  let doy : Int := doe - (365 * yoe + yoe / 4 - yoe / 100)
  let mp : Int := (5 * doy + 2) / 153
  let d : Int := doy - (153 * mp + 2) / 5 + 1
  let m : Int := if mp < 10 then mp + 3 else mp - 9
  (if m ≤ 2 then y + 1 else y, m, d)

def Date.year (d : Date) : Int := (civilFromDays d.days).1

def Date.month (d : Date) : Nat := (civilFromDays d.days).2.1.toNat

def Date.day (d : Date) : Nat := (civilFromDays d.days).2.2.toNat

def Date.subDays (d : Date) (n : Int) : Date := ⟨d.days - n⟩

/-- Weekday index with 0 = Monday (1970-01-01 was a Thursday, index 3). -/
def Date.weekdayIdx (d : Date) : Int := (d.days + 3) % 7

def dateLeB (a b : Date) : Bool := decide (a.days ≤ b.days)

/-- chrono `internals::MIN_YEAR = i32::MIN >> 13`. -/
def chronoMinYear : Int := -262144

/-- chrono `internals::MAX_YEAR = i32::MAX >> 13`. -/
def chronoMaxYear : Int := 262143

/-- Model of chrono `NaiveDate::from_ymd_opt`: `some` exactly when the year
lies in chrono's representable range and the month/day pair is a valid civil
date for it. -/
def fromYmdOpt (y : Int) (m : Nat) (d : Nat) : Option Date :=
  if chronoMinYear ≤ y ∧ y ≤ chronoMaxYear ∧
      1 ≤ m ∧ m ≤ 12 ∧ 1 ≤ d ∧ d ≤ daysInMonth y m then
    some ⟨daysFromCivil y m d⟩
  else none

/-- Split a character list at every dash (the semantics of
`String.splitOn "-"`, written structurally recursive so that the kernel can
evaluate it). -/
def splitOnDash : List Char → List (List Char)
  | [] => [[]]
  | c :: rest =>
    match splitOnDash rest with
    | [] => [[]]
    | g :: gs => if c == '-' then [] :: g :: gs else (c :: g) :: gs

def allDigits (l : List Char) : Bool := l.all Char.isDigit

def digitsVal (l : List Char) : Nat :=
  l.foldl (fun n c => n * 10 + (c.toNat - 48)) 0

/-- Model of chrono `NaiveDate::parse_from_str(s, "%Y-%m-%d")`: three
dash-separated non-empty decimal fields forming a valid civil date. -/
def parseDate (s : String) : Option Date :=
  match splitOnDash s.data with
  | [ys, ms, ds] =>
    if allDigits ys && allDigits ms && allDigits ds &&
        !ys.isEmpty && !ms.isEmpty && !ds.isEmpty then
      fromYmdOpt (Int.ofNat (digitsVal ys)) (digitsVal ms) (digitsVal ds)
    else none
  | _ => none

def asciiWhitespace (c : Char) : Bool :=
  c == ' ' || c == '\t' || c == '\n' || c == '\x0d'

/-- Rust `str::trim` (restricted to ASCII whitespace, which is all the claims
exercise), written over the character list so the kernel can evaluate it. -/
def strTrim (s : String) : String :=
  ⟨((s.data.dropWhile asciiWhitespace).reverse.dropWhile asciiWhitespace).reverse⟩

/-! Data model, following src/models (transaksi.rs, budget.rs, kategori.rs).
`created_at` timestamps are modelled as a monotone counter (only their
relative order is observable, in the recent-transactions sort). -/

structure Transaksi where
  id : Int
  user_id : String
  kategori_id : Int
  jumlah : Int
  deskripsi : String
  tanggal : Date
  created_at : Int
deriving DecidableEq

structure Budget where
  id : Int
  user_id : String
  kategori_id : Int
  amount : Int
  spent : Option Int
deriving DecidableEq

structure Kategori where
  id : Int
  nama : String
deriving DecidableEq

structure CreateTransaksiRequest where
  kategori_id : Int
  jumlah : Int
  deskripsi : String
  tanggal : String
deriving DecidableEq

structure UpdateTransaksiRequest where
  kategori_id : Option Int
  jumlah : Option Int
  deskripsi : Option String
  tanggal : Option String
deriving DecidableEq

/-- Database state: the tables touched by the core, plus counters for the
serial primary key and the `created_at` timestamps assigned by inserts. -/
structure DB where
  transaksi : List Transaksi
  budgets : List Budget
  categories : List Kategori
  nextTransaksiId : Int
  nextCreatedAt : Int
deriving DecidableEq

inductive ApiError where
  | badRequest : String → ApiError
  | notFound : String → ApiError
deriving DecidableEq

def msgJumlahPositif : String := "Jumlah harus lebih dari 0."

def msgDeskripsiKosong : String := "Deskripsi tidak boleh kosong."

def msgTanggalInvalid : String := "Format tanggal tidak valid. Gunakan format YYYY-MM-DD."

def msgKategoriTidakDitemukan : String := "Kategori tidak ditemukan."

def msgTransaksiTidakDitemukan : String := "Transaksi tidak ditemukan."

/-- SQL `COALESCE(spent, 0)`. -/
def coalesce0 (s : Option Int) : Int := s.getD 0

/-- SQL `SELECT EXISTS(SELECT 1 FROM categories WHERE id = $1)`. -/
def categoryExists (db : DB) (k : Int) : Bool :=
  db.categories.any (fun c => c.id == k)

/-- SQL `UPDATE budgets SET spent = COALESCE(spent, 0) + $1 WHERE user_id = $2
AND kategori_id = $3` (used with positive and negative deltas). -/
def budgetAdd (bs : List Budget) (u : String) (k : Int) (delta : Int) : List Budget :=
  bs.map fun b =>
    if b.user_id == u && b.kategori_id == k then
      { b with spent := some (coalesce0 b.spent + delta) }
    else b

/-- SQL `UPDATE budgets SET spent = GREATEST(COALESCE(spent, 0) - $1, 0)
WHERE user_id = $2 AND kategori_id = $3`. -/
def budgetSubFloor (bs : List Budget) (u : String) (k : Int) (amt : Int) : List Budget :=
  bs.map fun b =>
    if b.user_id == u && b.kategori_id == k then
      { b with spent := some (max (coalesce0 b.spent - amt) 0) }
    else b

/-- Embedding of `create_transaksi` (src/routes/transaksi.rs:127).  The checks
appear in source order: amount, description, date, category existence; then the
row insert and the budget increment commit together. -/
def create_transaksi (db : DB) (user_uuid : String) (payload : CreateTransaksiRequest) :
    Except ApiError (DB × Transaksi) :=
  if payload.jumlah ≤ 0 then
    Except.error (ApiError.badRequest msgJumlahPositif)
  else if (strTrim payload.deskripsi).data.isEmpty then
    Except.error (ApiError.badRequest msgDeskripsiKosong)
  else
    match parseDate payload.tanggal with
    | none => Except.error (ApiError.badRequest msgTanggalInvalid)
    | some tanggal =>
      if categoryExists db payload.kategori_id then
        let t : Transaksi :=
          { id := db.nextTransaksiId
            user_id := user_uuid
            kategori_id := payload.kategori_id
            jumlah := payload.jumlah
            deskripsi := strTrim payload.deskripsi
            tanggal := tanggal
            created_at := db.nextCreatedAt }
        Except.ok
          ({ db with
              transaksi := db.transaksi ++ [t]
              budgets := budgetAdd db.budgets user_uuid payload.kategori_id payload.jumlah
              nextTransaksiId := db.nextTransaksiId + 1
              nextCreatedAt := db.nextCreatedAt + 1 }, t)
      else Except.error (ApiError.badRequest msgKategoriTidakDitemukan)

/-- SQL `UPDATE transaksi SET kategori_id = COALESCE($1, kategori_id), ...`
applied to one row (partial-update merge; `updated_at` is not modelled). -/
def mergeTx (t : Transaksi) (payload : UpdateTransaksiRequest) (tgl : Option Date) : Transaksi :=
  { t with
      kategori_id := payload.kategori_id.getD t.kategori_id
      jumlah := payload.jumlah.getD t.jumlah
      deskripsi := (payload.deskripsi.map strTrim).getD t.deskripsi
      tanggal := tgl.getD t.tanggal }

/-- Per-row effect of the update statement, whose `WHERE` clause is
`id = $5` (the ownership check happened before). -/
def applyRow (transaksi_id : Int) (payload : UpdateTransaksiRequest) (tgl : Option Date)
    (t : Transaksi) : Transaksi :=
  if t.id == transaksi_id then mergeTx t payload tgl else t

/-- Date-field validation of `update_transaksi`: a supplied `tanggal` must
parse, an absent one is kept as `none`. -/
def parseTanggalField : Option String → Except ApiError (Option Date)
  | none => Except.ok none
  | some s =>
    match parseDate s with
    | some d => Except.ok (some d)
    | none => Except.error (ApiError.badRequest msgTanggalInvalid)

/-- Category-field validation of `update_transaksi`: a supplied category id
must exist. -/
def kategoriOk (db : DB) : Option Int → Bool
  | none => true
  | some k => categoryExists db k

/-- Embedding of `update_transaksi` (src/routes/transaksi.rs:282).  Note that,
unlike `create_transaksi`, the handler never validates a supplied `jumlah`:
only the date format and the category existence are checked.  The budget
reconciliation follows the source exactly: on a category change the old
category is decremented by the old amount with a floor at zero and the new
category is incremented by the post-update amount; otherwise the single budget
is incremented by the signed amount difference (without a floor). -/
def update_transaksi (db : DB) (user_uuid : String) (transaksi_id : Int)
    (payload : UpdateTransaksiRequest) : Except ApiError (DB × Transaksi) :=
  match db.transaksi.find? (fun t => t.id == transaksi_id && t.user_id == user_uuid) with
  | none => Except.error (ApiError.notFound msgTransaksiTidakDitemukan)
  | some old_transaksi =>
    match parseTanggalField payload.tanggal with
    | Except.error e => Except.error e
    | Except.ok tgl =>
      if kategoriOk db payload.kategori_id then
        let updated_transaksi := mergeTx old_transaksi payload tgl
        let newTxs := db.transaksi.map (applyRow transaksi_id payload tgl)
        let jumlah_diff := updated_transaksi.jumlah - old_transaksi.jumlah
        let newBudgets :=
          match payload.kategori_id with
          | some new_kategori_id =>
            if new_kategori_id != old_transaksi.kategori_id then
              budgetAdd
                (budgetSubFloor db.budgets user_uuid old_transaksi.kategori_id
                  old_transaksi.jumlah)
                user_uuid new_kategori_id updated_transaksi.jumlah
            else budgetAdd db.budgets user_uuid old_transaksi.kategori_id jumlah_diff
          | none => budgetAdd db.budgets user_uuid old_transaksi.kategori_id jumlah_diff
        Except.ok ({ db with transaksi := newTxs, budgets := newBudgets }, updated_transaksi)
      else Except.error (ApiError.badRequest msgKategoriTidakDitemukan)

/-- Embedding of `delete_transaksi` (src/routes/transaksi.rs:527): ownership
check, then `DELETE FROM transaksi WHERE id = $1` and the floored budget
decrement commit together. -/
def delete_transaksi (db : DB) (user_uuid : String) (transaksi_id : Int) :
    Except ApiError DB :=
  match db.transaksi.find? (fun t => t.id == transaksi_id && t.user_id == user_uuid) with
  | none => Except.error (ApiError.notFound msgTransaksiTidakDitemukan)
  | some t =>
    Except.ok
      { db with
          transaksi := db.transaksi.filter (fun r => !(r.id == transaksi_id))
          budgets := budgetSubFloor db.budgets user_uuid t.kategori_id t.jumlah }

/-! Generic list helpers standing in for SQL `ORDER BY` and the `MIN`/`MAX`
aggregates (written structurally recursive so that concrete instances reduce). -/

def insertSorted {α : Type} (le : α → α → Bool) (a : α) : List α → List α
  | [] => [a]
  | b :: l => if le a b then a :: b :: l else b :: insertSorted le a l

def sortBy {α : Type} (le : α → α → Bool) : List α → List α
  | [] => []
  | a :: l => insertSorted le a (sortBy le l)

/-- SQL aggregate `MAX` over a column: `NULL` on an empty set. -/
def aggMax : List Int → Option Int
  | [] => none
  | a :: l =>
    match aggMax l with
    | none => some a
    | some b => some (max a b)

/-- SQL aggregate `MIN` over a column: `NULL` on an empty set. -/
def aggMin : List Int → Option Int
  | [] => none
  | a :: l =>
    match aggMin l with
    | none => some a
    | some b => some (min a b)

/-! Windowed analytics engine (src/routes/statistik.rs).  `today` is the
`Local::now().naive_local().date()` value, passed explicitly. -/

structure StatistikQuery where
  filter : Option String
  start_date : Option String
  end_date : Option String
  year : Option Int
  month : Option Nat
deriving DecidableEq

structure PengeluaranKategori where
  kategori_nama : String
  total_pengeluaran : Int
  persentase : ℚ
deriving DecidableEq

structure RingkasanPengeluaran where
  total_pengeluaran : Int
  rata_rata_harian : ℚ
  total_transaksi : Nat
  tertinggi_hari_ini : Option Int
  terendah_hari_ini : Option Int
  tertinggi_bulan_ini : Option Int
  terendah_bulan_ini : Option Int
deriving DecidableEq

structure StatistikResponse where
  pengeluaran_per_kategori : List PengeluaranKategori
  ringkasan : RingkasanPengeluaran
deriving DecidableEq

/-- Result of `get_user_statistik`, bundling the response body with the
`filter_applied` start/end dates echoed by the handler. -/
structure StatistikResult where
  data : StatistikResponse
  final_start : Date
  final_end : Date
deriving DecidableEq

def strDaily : String := "daily"

def strWeekly : String := "weekly"

def strMonthly : String := "monthly"

/-- Rows selected by `WHERE user_id = $1 AND tanggal >= $2 AND tanggal <= $3`. -/
def windowTxs (db : DB) (uid : String) (s e : Date) : List Transaksi :=
  db.transaksi.filter fun t => t.user_id == uid && dateLeB s t.tanggal && dateLeB t.tanggal e

/-- SQL `COALESCE(SUM(jumlah), 0)` over the user/date window. -/
def windowSum (db : DB) (uid : String) (s e : Date) : Int :=
  ((windowTxs db uid s e).map Transaksi.jumlah).sum

/-- SQL `COUNT(*)` over the user/date window. -/
def windowCount (db : DB) (uid : String) (s e : Date) : Nat :=
  (windowTxs db uid s e).length

/-- Per-category windowed sum: the `LEFT JOIN` in the breakdown query sums the
matching transactions of one category (0 when there are none). -/
def catWindowSum (db : DB) (uid : String) (k : Int) (s e : Date) : Int :=
  (((windowTxs db uid s e).filter fun t => t.kategori_id == k).map Transaksi.jumlah).sum

/-- Round the fraction `a / b` (with `b > 0`) half away from zero to the
nearest integer, the tie behaviour of Postgres `ROUND` on `numeric`.  For
`a ≥ 0` this is the floor of `a/b + 1/2`, i.e. `(2a + b) / (2b)` in integer
division; negative values mirror. -/
def roundHalfAwayDiv (a b : Int) : Int :=
  if 0 ≤ a then (2 * a + b) / (2 * b) else -((2 * (-a) + b) / (2 * b))

/-- Postgres `ROUND(a/b, 2)` (with `b > 0`) as an exact rational, using
`ROUND(x, 2) = round-half-away(100 * x) / 100`.  The subsequent
`CAST(... AS FLOAT8)` is modelled as exact (the rounded two-decimal value is
kept as a rational). -/
def pgRound2Frac (a b : Int) : ℚ := mkRat (roundHalfAwayDiv (a * 100) b) 100

/-- Breakdown entry for one category row, following the `CASE WHEN $4 > 0 THEN
ROUND(sum * 100.0 / $4, 2) ELSE 0.0 END` expression. -/
def mkPengeluaranKategori (db : DB) (uid : String) (s e : Date) (total : Int)
    (c : Kategori) : PengeluaranKategori :=
  { kategori_nama := c.nama
    total_pengeluaran := catWindowSum db uid c.id s e
    persentase :=
      if 0 < total then pgRound2Frac (catWindowSum db uid c.id s e * 100) total
      else 0 }

/-- SQL `ORDER BY total_pengeluaran DESC, c.nama ASC`. -/
def pengeluaranLe (a b : PengeluaranKategori) : Bool :=
  decide (b.total_pengeluaran < a.total_pengeluaran) ||
    (a.total_pengeluaran == b.total_pengeluaran &&
      compare a.kategori_nama b.kategori_nama != Ordering.gt)

/-- Monthly (and default) window resolution: `from_ymd_opt(..).unwrap()` is
modelled by `Option`, `none` standing for the panic. -/
def monthlyWindow (today : Date) (year? : Option Int) (month? : Option Nat) :
    Option (Date × Date) :=
  let targetYear := year?.getD today.year
  let targetMonth := month?.getD today.month
  match fromYmdOpt targetYear targetMonth 1 with
  | none => none
  | some start =>
    if targetYear == today.year && targetMonth == today.month then some (start, today)
    else
      let nextMonth := if targetMonth == 12 then 1 else targetMonth + 1
      let nextYear := if targetMonth == 12 then targetYear + 1 else targetYear
      match fromYmdOpt nextYear nextMonth 1 with
      | none => none
      | some firstNext => some (start, firstNext.subDays 1)

/-- Date-window resolution of `get_user_statistik` (src/routes/statistik.rs:34):
the `Some("monthly")` arm and the default arm run the same month logic. -/
def resolveWindow (q : StatistikQuery) (today : Date) : Option (Date × Date) :=
  if q.filter == some strDaily then some (today, today)
  else if q.filter == some strWeekly then some (today.subDays 7, today)
  else monthlyWindow today q.year q.month

/-- Embedding of `get_user_statistik` (src/routes/statistik.rs:14).  A `none`
result models the `unwrap()` panic during window resolution; explicit
`start_date`/`end_date` strings override the resolved bounds per field when
they parse, and fall back to the resolved bound otherwise. -/
def get_user_statistik (db : DB) (uid : String) (q : StatistikQuery) (today : Date) :
    Option StatistikResult :=
  match resolveWindow q today with
  | none => none
  | some (start_date, end_date) =>
    let final_start_date :=
      match q.start_date with
      | some s => (parseDate s).getD start_date
      | none => start_date
    let final_end_date :=
      match q.end_date with
      | some s => (parseDate s).getD end_date
      | none => end_date
    let total_pengeluaran := windowSum db uid final_start_date final_end_date
    let pengeluaran_per_kategori :=
      sortBy pengeluaranLe
        (db.categories.map
          (mkPengeluaranKategori db uid final_start_date final_end_date total_pengeluaran))
    let total_transaksi := windowCount db uid final_start_date final_end_date
    let days_diff : Int := (final_end_date.days - final_start_date.days) + 1
    let rata_rata_harian : ℚ :=
      if 0 < days_diff then mkRat total_pengeluaran days_diff.toNat else 0
    some
      { data :=
          { pengeluaran_per_kategori := pengeluaran_per_kategori
            ringkasan :=
              { total_pengeluaran := total_pengeluaran
                rata_rata_harian := rata_rata_harian
                total_transaksi := total_transaksi
                tertinggi_hari_ini := none
                terendah_hari_ini := none
                tertinggi_bulan_ini := none
                terendah_bulan_ini := none } }
        final_start := final_start_date
        final_end := final_end_date }

/-! Dashboard (src/routes/statistik.rs:308). -/

structure ChartDataPoint where
  hari : String
  jumlah : Int
deriving DecidableEq

structure TransaksiTerakhir where
  id : Int
  deskripsi : String
  jumlah : Int
  tanggal : String
  kategori_nama : String
deriving DecidableEq

structure DashboardResponse where
  total_bulan_ini : Int
  total_hari_ini : Int
  tertinggi_bulan_ini : Int
  tertinggi_hari_ini : Int
  terendah_bulan_ini : Int
  terendah_hari_ini : Int
  pengeluaran_mingguan : List ChartDataPoint
  transaksi_terakhir : List TransaksiTerakhir
deriving DecidableEq

/-- Hardcoded alternate user substituted when the requested user has no
transactions (the `Uuid::parse_str` of this literal always succeeds, so the
`Err` fallback branch is dead code). -/
def fallbackUserId : String := "8787368b-3437-4440-9d99-0675386f1626"

def strTanpaKategori : String := "Tanpa Kategori"

/-- Weekday labels used by the weekly chart, indexed with 0 = Monday. -/
def dayName (idx : Int) : String :=
  if idx == 0 then "Sen"
  else if idx == 1 then "Sel"
  else if idx == 2 then "Rab"
  else if idx == 3 then "Kam"
  else if idx == 4 then "Jum"
  else if idx == 5 then "Sab"
  else "Min"

/-- First day of `today`'s month, via `from_ymd_opt(today.year(),
today.month(), 1).unwrap()`; the unwrap cannot fail for a date's own year and
month, so the `none` case is given an arbitrary default. -/
def startOfMonth (today : Date) : Date :=
  (fromYmdOpt today.year today.month 1).getD today

/-- SQL `COALESCE(SUM(jumlah), 0) ... AND tanggal = $2`. -/
def daySum (db : DB) (uid : String) (d : Date) : Int :=
  ((db.transaksi.filter fun t => t.user_id == uid && t.tanggal == d).map Transaksi.jumlah).sum

/-- Amounts in the user/date window (for the `MAX(jumlah)` queries). -/
def amountsIn (db : DB) (uid : String) (s e : Date) : List Int :=
  (windowTxs db uid s e).map Transaksi.jumlah

/-- Strictly positive amounts in the user/date window (for the `MIN(jumlah)
... AND jumlah > 0` queries). -/
def positiveAmountsIn (db : DB) (uid : String) (s e : Date) : List Int :=
  ((windowTxs db uid s e).filter fun t => decide (0 < t.jumlah)).map Transaksi.jumlah

def pad2 (n : Nat) : String :=
  if n < 10 then ("0").append (toString n) else toString n

def pad4 (n : Nat) : String :=
  if n < 10 then ("000").append (toString n)
  else if n < 100 then ("00").append (toString n)
  else if n < 1000 then ("0").append (toString n)
  else toString n

/-- Postgres `tanggal::text` rendering of a date. -/
def formatDate (d : Date) : String :=
  ((((pad4 d.year.toNat).append ("-")).append (pad2 d.month)).append ("-")).append (pad2 d.day)

/-- SQL `ORDER BY t.tanggal DESC, t.created_at DESC`. -/
def recentLe (a b : Transaksi) : Bool :=
  decide (b.tanggal.days < a.tanggal.days) ||
    (a.tanggal.days == b.tanggal.days && decide (b.created_at ≤ a.created_at))

/-- Row shape of the recent-transactions query, with `COALESCE(c.nama,
'Tanpa Kategori')` for the `LEFT JOIN` on categories. -/
def toTerakhir (db : DB) (t : Transaksi) : TransaksiTerakhir :=
  { id := t.id
    deskripsi := t.deskripsi
    jumlah := t.jumlah
    tanggal := formatDate t.tanggal
    kategori_nama :=
      ((db.categories.find? fun c => c.id == t.kategori_id).map Kategori.nama).getD
        strTanpaKategori }

/-- All dashboard statistics computed for one (already resolved) user id:
daily/monthly totals, per-window single highest amount, single lowest strictly
positive amount (0 when none), the trailing-7-day series, and the 10 most
recent transactions. -/
def dashboardFor (db : DB) (uid : String) (today : Date) : DashboardResponse :=
  let som := startOfMonth today
  { total_hari_ini := daySum db uid today
    total_bulan_ini := windowSum db uid som today
    tertinggi_hari_ini := (aggMax (amountsIn db uid today today)).getD 0
    tertinggi_bulan_ini := (aggMax (amountsIn db uid som today)).getD 0
    terendah_hari_ini := (aggMin (positiveAmountsIn db uid today today)).getD 0
    terendah_bulan_ini := (aggMin (positiveAmountsIn db uid som today)).getD 0
    pengeluaran_mingguan :=
      (List.range 7).map fun i =>
        let currentDay := today.subDays (6 - (i : Int))
        { hari := dayName currentDay.weekdayIdx, jumlah := daySum db uid currentDay }
    transaksi_terakhir :=
      ((sortBy recentLe (db.transaksi.filter fun t => t.user_id == uid)).take 10).map
        (toTerakhir db) }

/-- SQL `SELECT COUNT(*) FROM transaksi WHERE user_id = $1`. -/
def userTxCount (db : DB) (uid : String) : Nat :=
  (db.transaksi.filter fun t => t.user_id == uid).length

/-- The user id the dashboard actually computes statistics for: the hardcoded
fallback whenever the requested user has zero transactions. -/
def actualDashboardUser (db : DB) (uid : String) : String :=
  if userTxCount db uid == 0 then fallbackUserId else uid

/-- Embedding of `get_dashboard_data` (src/routes/statistik.rs:308). -/
def get_dashboard_data (db : DB) (uid : String) (today : Date) : DashboardResponse :=
  dashboardFor db (actualDashboardUser db uid) today

/-! Operation sequences through the mutation coordinator, for the
ledger/aggregate consistency invariant. -/

inductive LedgerOp where
  | create : CreateTransaksiRequest → LedgerOp
  | update : Int → UpdateTransaksiRequest → LedgerOp
  | delete : Int → LedgerOp
deriving DecidableEq

/-- Run one coordinator operation for a fixed user; a rejected operation
(validation or not-found error) leaves the state unchanged, because every
handler rejects before any write. -/
def applyOp (u : String) (db : DB) : LedgerOp → DB
  | .create p =>
    match create_transaksi db u p with
    | Except.ok (db2, _) => db2
    | Except.error _ => db
  | .update i p =>
    match update_transaksi db u i p with
    | Except.ok (db2, _) => db2
    | Except.error _ => db
  | .delete i =>
    match delete_transaksi db u i with
    | Except.ok db2 => db2
    | Except.error _ => db

/-- Sum of the amounts of a user's transactions in one category, over a
transaction list. -/
def sumTxL (u : String) (k : Int) (l : List Transaksi) : Int :=
  ((l.filter fun t => t.user_id == u && t.kategori_id == k).map Transaksi.jumlah).sum

/-- Sum of the amounts of the remaining transactions of `(u, k)` in the state. -/
def sumTx (db : DB) (u : String) (k : Int) : Int := sumTxL u k db.transaksi

/-- An operation is amount-safe when any amount it supplies is positive:
`create` re-validates this itself, but `update` does not, so the restriction
is material only for updates. -/
def AmountSafe : LedgerOp → Prop
  | .create _ => True
  | .update _ p => ∀ j, p.jumlah = some j → 0 < j
  | .delete _ => True

instance decidableAmountSafe : DecidablePred AmountSafe := fun op =>
  match op with
  | .create _ => isTrue trivial
  | .update _ p =>
    match hp : p.jumlah with
    | none => isTrue (fun j hj => absurd (hp ▸ hj) (by simp))
    | some j0 =>
      if h : 0 < j0 then
        isTrue (fun j hj => by
          rw [hp] at hj
          injection hj with hj2
          rw [← hj2]
          exact h)
      else isFalse (fun hall => h (hall j0 hp))
  | .delete _ => isTrue trivial

/-- Contribution of one transaction row to the `(u, k)` aggregate sum. -/
def txContrib (u : String) (k : Int) (t : Transaksi) : Int :=
  if t.user_id == u && t.kategori_id == k then t.jumlah else 0

/-- Inductive invariant for runs of the mutation coordinator for user `u`
starting from an empty ledger: every row belongs to `u`, has a positive
amount and a fresh unique serial id, and every `(u, k)` budget row caches
exactly the ledger sum. -/
structure LedgerInv (u : String) (k : Int) (db : DB) : Prop where
  userAll : ∀ t ∈ db.transaksi, t.user_id = u
  posAll : ∀ t ∈ db.transaksi, 0 < t.jumlah
  idBound : ∀ t ∈ db.transaksi, t.id < db.nextTransaksiId
  nodupIds : (db.transaksi.map Transaksi.id).Nodup
  consistent : ∀ b ∈ db.budgets, b.user_id = u → b.kategori_id = k →
    coalesce0 b.spent = sumTx db u k

/-! Concrete instances used by witnesses and counterexamples. -/

def c1user : String := "11111111-1111-1111-1111-111111111111"

/-- Initial state for the consistency runs: empty ledger, one budget row for
(c1user, category 5) with `spent = 0` (the pre-existing, drift-free budget of
the claim), category 5 registered. -/
def c1db0 : DB :=
  { transaksi := []
    budgets := [{ id := 1, user_id := c1user, kategori_id := 5, amount := 10000,
                  spent := some 0 }]
    categories := [{ id := 5, nama := "Makan" }]
    nextTransaksiId := 1
    nextCreatedAt := 1 }

/-- Create a 3000 transaction, then update it to amount -8: the update handler
accepts the non-positive amount and the budget drifts to -8. -/
def c1ops : List LedgerOp :=
  [LedgerOp.create { kategori_id := 5, jumlah := 3000, deskripsi := "a",
                     tanggal := "2024-03-01" },
   LedgerOp.update 1 { kategori_id := none, jumlah := some (-8), deskripsi := none,
                       tanggal := none }]

/-- The worked scenario of the specification: create 3000, create 5000, delete
the first. -/
def c1wops : List LedgerOp :=
  [LedgerOp.create { kategori_id := 5, jumlah := 3000, deskripsi := "a",
                     tanggal := "2024-03-01" },
   LedgerOp.create { kategori_id := 5, jumlah := 5000, deskripsi := "b",
                     tanggal := "2024-03-02" },
   LedgerOp.delete 1]

def c1final : DB := List.foldl (applyOp c1user) c1db0 c1wops

def c1finalBudget : Budget :=
  { id := 1, user_id := c1user, kategori_id := 5, amount := 10000, spent := some 5000 }

def c2uid : String := "22222222-2222-2222-2222-222222222222"

def c2tx : Transaksi :=
  { id := 1, user_id := c2uid, kategori_id := 5, jumlah := 3000, deskripsi := "x",
    tanggal := ⟨19783⟩, created_at := 1 }

def c2db : DB :=
  { transaksi := [c2tx]
    budgets := [{ id := 1, user_id := c2uid, kategori_id := 5, amount := 10000,
                  spent := some 3000 }]
    categories := [{ id := 5, nama := "Makan" }]
    nextTransaksiId := 2
    nextCreatedAt := 2 }

/-- Partial update supplying only `amount = 0`. -/
def c2pay : UpdateTransaksiRequest :=
  { kategori_id := none, jumlah := some 0, deskripsi := none, tanggal := none }

/-- Partial update supplying an unparseable date. -/
def c2badpay : UpdateTransaksiRequest :=
  { kategori_id := none, jumlah := none, deskripsi := none, tanggal := some "not-a-date" }

/-- Partial update supplying a negative amount. -/
def c2negpay : UpdateTransaksiRequest :=
  { kategori_id := none, jumlah := some (-5), deskripsi := none, tanggal := none }

def c3uid : String := "33333333-3333-3333-3333-333333333333"

/-- State in which the requested user owns no transactions while the hardcoded
fallback user has one 7-unit transaction on day 19783 (2024-03-01). -/
def c3db : DB :=
  { transaksi := [{ id := 1, user_id := fallbackUserId, kategori_id := 5, jumlah := 7,
                    deskripsi := "f", tanggal := ⟨19783⟩, created_at := 1 }]
    budgets := []
    categories := [{ id := 5, nama := "Makan" }]
    nextTransaksiId := 2
    nextCreatedAt := 2 }

def c4uid : String := "44444444-4444-4444-4444-444444444444"

def c4tx : Transaksi :=
  { id := 1, user_id := c4uid, kategori_id := 5, jumlah := 10, deskripsi := "x",
    tanggal := ⟨19783⟩, created_at := 1 }

/-- State with one 10-unit transaction whose budget row has drifted to
`spent = 5` (the floor case of the claim). -/
def c4db : DB :=
  { transaksi := [c4tx]
    budgets := [{ id := 1, user_id := c4uid, kategori_id := 5, amount := 100,
                  spent := some 5 }]
    categories := [{ id := 5, nama := "Makan" }]
    nextTransaksiId := 2
    nextCreatedAt := 2 }

def c5uid : String := "55555555-5555-5555-5555-555555555555"

def c5tx : Transaksi :=
  { id := 1, user_id := c5uid, kategori_id := 5, jumlah := 40, deskripsi := "x",
    tanggal := ⟨19783⟩, created_at := 1 }

def c5db : DB :=
  { transaksi := [c5tx]
    budgets := [{ id := 1, user_id := c5uid, kategori_id := 5, amount := 100,
                  spent := some 40 },
                { id := 2, user_id := c5uid, kategori_id := 6, amount := 100,
                  spent := some 0 }]
    categories := [{ id := 5, nama := "Makan" }, { id := 6, nama := "Transport" }]
    nextTransaksiId := 2
    nextCreatedAt := 2 }

/-- Move the transaction from category 5 to category 6 without touching the
amount. -/
def c5pay : UpdateTransaksiRequest :=
  { kategori_id := some 6, jumlah := none, deskripsi := none, tanggal := none }

def c6uid : String := "66666666-6666-6666-6666-666666666666"

def c6db : DB :=
  { transaksi := [], budgets := [], categories := [], nextTransaksiId := 1,
    nextCreatedAt := 1 }

/-- Default filter with an out-of-range month parameter. -/
def c6q : StatistikQuery :=
  { filter := none, start_date := none, end_date := none, year := some 2024,
    month := some 13 }

/-- Default filter with an in-range month but a year beyond chrono's maximum
representable year. -/
def c6qYear : StatistikQuery :=
  { filter := none, start_date := none, end_date := none, year := some 300000,
    month := some 5 }

/-- Default filter targeting December of chrono's maximum representable year:
the first-of-month unwrap succeeds but the next-month unwrap (year 262144)
panics. -/
def c6qMaxDec : StatistikQuery :=
  { filter := none, start_date := none, end_date := none, year := some 262143,
    month := some 12 }

/-- Weekly filter query without explicit date overrides. -/
def c7q : StatistikQuery :=
  { filter := some strWeekly, start_date := none, end_date := none, year := none,
    month := none }

def c7uid : String := "77777777-7777-7777-7777-777777777777"

def c8uid : String := "88888888-8888-8888-8888-888888888888"

/-- Two categories, window total 3 split 1/2, so the percentage 100/3 does not
survive the two-decimal rounding. -/
def c8db : DB :=
  { transaksi := [{ id := 1, user_id := c8uid, kategori_id := 1, jumlah := 1,
                    deskripsi := "a", tanggal := ⟨19783⟩, created_at := 1 },
                  { id := 2, user_id := c8uid, kategori_id := 2, jumlah := 2,
                    deskripsi := "b", tanggal := ⟨19784⟩, created_at := 2 }]
    budgets := []
    categories := [{ id := 1, nama := "A" }, { id := 2, nama := "B" }]
    nextTransaksiId := 3
    nextCreatedAt := 3 }

/-- Daily filter (always resolvable) with explicit window overrides covering
March 2024. -/
def c8q : StatistikQuery :=
  { filter := some strDaily, start_date := some "2024-03-01",
    end_date := some "2024-03-31", year := none, month := none }

def c8res : StatistikResult :=
  (get_user_statistik c8db c8uid c8q ⟨0⟩).getD
    ⟨⟨[], ⟨0, 0, 0, none, none, none, none⟩⟩, ⟨0⟩, ⟨0⟩⟩

def c8qZero : StatistikQuery :=
  { filter := some strDaily, start_date := some "2023-01-01",
    end_date := some "2023-01-31", year := none, month := none }

def c8resZero : StatistikResult :=
  (get_user_statistik c8db c8uid c8qZero ⟨0⟩).getD
    ⟨⟨[], ⟨0, 0, 0, none, none, none, none⟩⟩, ⟨0⟩, ⟨0⟩⟩

def c9uid : String := "99999999-9999-9999-9999-999999999999"

def c9today : Date := ⟨19783⟩

/-- Today's transactions have amounts 0, 0 and 7. -/
def c9db : DB :=
  { transaksi := [{ id := 1, user_id := c9uid, kategori_id := 5, jumlah := 0,
                    deskripsi := "a", tanggal := c9today, created_at := 1 },
                  { id := 2, user_id := c9uid, kategori_id := 5, jumlah := 0,
                    deskripsi := "b", tanggal := c9today, created_at := 2 },
                  { id := 3, user_id := c9uid, kategori_id := 5, jumlah := 7,
                    deskripsi := "c", tanggal := c9today, created_at := 3 }]
    budgets := []
    categories := [{ id := 5, nama := "Makan" }]
    nextTransaksiId := 4
    nextCreatedAt := 4 }

def c10uid : String := "10101010-1010-1010-1010-101010101010"

def c10db : DB :=
  { transaksi := []
    budgets := [{ id := 1, user_id := c10uid, kategori_id := 5, amount := 100,
                  spent := some 0 }]
    categories := [{ id := 5, nama := "Makan" }]
    nextTransaksiId := 1
    nextCreatedAt := 1 }

def c10zero : CreateTransaksiRequest :=
  { kategori_id := 5, jumlah := 0, deskripsi := "x", tanggal := "2024-03-01" }

def c10one : CreateTransaksiRequest :=
  { kategori_id := 5, jumlah := 1, deskripsi := "x", tanggal := "2024-03-01" }

/-! General lemmas about the embedded operations. -/

theorem mem_insertSorted {α : Type} (le : α → α → Bool) (a x : α) (l : List α) :
    x ∈ insertSorted le a l ↔ x ∈ a :: l := by
  induction l with
  | nil => simp [insertSorted]
  | cons b l ih =>
    simp only [insertSorted]
    split
    · simp
    · simp only [List.mem_cons, ih]
      tauto

theorem mem_sortBy {α : Type} (le : α → α → Bool) (x : α) (l : List α) :
    x ∈ sortBy le l ↔ x ∈ l := by
  induction l with
  | nil => simp [sortBy]
  | cons a l ih => simp [sortBy, mem_insertSorted, ih]

theorem aggMin_eq_none {l : List Int} : aggMin l = none ↔ l = [] := by
  cases l with
  | nil => simp [aggMin]
  | cons a l =>
    simp only [aggMin]
    cases aggMin l <;> simp

theorem aggMin_mem {l : List Int} {a : Int} (h : aggMin l = some a) : a ∈ l := by
  induction l generalizing a with
  | nil => simp [aggMin] at h
  | cons b l ih =>
    simp only [aggMin] at h
    cases hl : aggMin l with
    | none =>
      rw [hl] at h
      simp at h
      simp [h]
    | some c =>
      rw [hl] at h
      simp at h
      subst h
      rcases min_choice b c with hm | hm
      · rw [hm]
        exact List.mem_cons_self b l
      · rw [hm]
        exact List.mem_cons_of_mem b (ih hl)

theorem aggMin_le {l : List Int} {a : Int} (h : aggMin l = some a) :
    ∀ x ∈ l, a ≤ x := by
  induction l generalizing a with
  | nil => simp
  | cons b l ih =>
    simp only [aggMin] at h
    intro x hx
    cases hl : aggMin l with
    | none =>
      rw [hl] at h
      simp at h
      subst h
      rw [aggMin_eq_none] at hl
      subst hl
      simp at hx
      simp [hx]
    | some c =>
      rw [hl] at h
      simp at h
      subst h
      rcases List.mem_cons.mp hx with heq | hx
      · subst heq
        exact min_le_left x c
      · exact le_trans (min_le_right b c) (ih hl x hx)

theorem sumTxL_nil (u : String) (k : Int) : sumTxL u k [] = 0 := rfl

theorem sumTxL_cons (u : String) (k : Int) (t : Transaksi) (l : List Transaksi) :
    sumTxL u k (t :: l) = txContrib u k t + sumTxL u k l := by
  simp only [sumTxL, txContrib, List.filter_cons]
  split
  · simp
  · simp

theorem sumTxL_append (u : String) (k : Int) (l₁ l₂ : List Transaksi) :
    sumTxL u k (l₁ ++ l₂) = sumTxL u k l₁ + sumTxL u k l₂ := by
  simp [sumTxL, List.filter_append]

theorem txContrib_nonneg {u : String} {k : Int} {t : Transaksi} (h : 0 < t.jumlah) :
    0 ≤ txContrib u k t := by
  unfold txContrib
  split
  · omega
  · omega

theorem sumTxL_nonneg {u : String} {k : Int} {l : List Transaksi}
    (h : ∀ t ∈ l, 0 < t.jumlah) : 0 ≤ sumTxL u k l := by
  induction l with
  | nil => simp [sumTxL_nil]
  | cons t l ih =>
    rw [sumTxL_cons]
    have h1 := txContrib_nonneg (u := u) (k := k) (h t (by simp))
    have h2 := ih fun x hx => h x (by simp [hx])
    omega

theorem txContrib_le_sumTxL {u : String} {k : Int} {t : Transaksi} {l : List Transaksi}
    (ht : t ∈ l) (hpos : ∀ x ∈ l, 0 < x.jumlah) : txContrib u k t ≤ sumTxL u k l := by
  induction l with
  | nil => simp at ht
  | cons b l ih =>
    rw [sumTxL_cons]
    rcases List.mem_cons.mp ht with rfl | ht
    · have := sumTxL_nonneg (u := u) (k := k) (l := l) fun x hx => hpos x (by simp [hx])
      omega
    · have h1 := txContrib_nonneg (u := u) (k := k) (hpos b (by simp))
      have h2 := ih ht fun x hx => hpos x (by simp [hx])
      omega

theorem mergeTx_id (t : Transaksi) (p : UpdateTransaksiRequest) (tgl : Option Date) :
    (mergeTx t p tgl).id = t.id := rfl

theorem mergeTx_user (t : Transaksi) (p : UpdateTransaksiRequest) (tgl : Option Date) :
    (mergeTx t p tgl).user_id = t.user_id := rfl

theorem applyRow_id (tid : Int) (p : UpdateTransaksiRequest) (tgl : Option Date)
    (t : Transaksi) : (applyRow tid p tgl t).id = t.id := by
  unfold applyRow
  split <;> rfl

theorem applyRow_user (tid : Int) (p : UpdateTransaksiRequest) (tgl : Option Date)
    (t : Transaksi) : (applyRow tid p tgl t).user_id = t.user_id := by
  unfold applyRow
  split <;> rfl

theorem applyRow_of_ne {tid : Int} {t : Transaksi} (p : UpdateTransaksiRequest)
    (tgl : Option Date) (h : t.id ≠ tid) : applyRow tid p tgl t = t := by
  unfold applyRow
  simp [h]

theorem applyRow_of_eq {tid : Int} {t : Transaksi} (p : UpdateTransaksiRequest)
    (tgl : Option Date) (h : t.id = tid) : applyRow tid p tgl t = mergeTx t p tgl := by
  unfold applyRow
  simp [h]

theorem map_applyRow_of_absent {tid : Int} {l : List Transaksi}
    (p : UpdateTransaksiRequest) (tgl : Option Date) (h : ∀ t ∈ l, t.id ≠ tid) :
    l.map (applyRow tid p tgl) = l := by
  induction l with
  | nil => rfl
  | cons b l ih =>
    simp only [List.map_cons]
    rw [applyRow_of_ne p tgl (h b (by simp)), ih fun t ht => h t (by simp [ht])]

theorem filter_keep_of_absent {tid : Int} {l : List Transaksi}
    (h : ∀ t ∈ l, t.id ≠ tid) : (l.filter fun r => !(r.id == tid)) = l := by
  induction l with
  | nil => rfl
  | cons b l ih =>
    rw [List.filter_cons]
    have hb : (!(b.id == tid)) = true := by simp [h b (by simp)]
    rw [if_pos hb, ih fun t ht => h t (by simp [ht])]

theorem sumTxL_map_applyRow {u : String} {k : Int} {tid : Int}
    (p : UpdateTransaksiRequest) (tgl : Option Date) :
    ∀ (l : List Transaksi), (l.map Transaksi.id).Nodup →
      ∀ old ∈ l, old.id = tid →
        sumTxL u k (l.map (applyRow tid p tgl)) =
          sumTxL u k l - txContrib u k old + txContrib u k (mergeTx old p tgl) := by
  intro l
  induction l with
  | nil => intro _ old hold; simp at hold
  | cons b l ih =>
    intro hnd old hold hid
    simp only [List.map_cons, List.nodup_cons] at hnd
    rcases List.mem_cons.mp hold with rfl | hold
    · have habs : ∀ t ∈ l, t.id ≠ tid := by
        intro t ht heq
        apply hnd.1
        rw [hid, ← heq]
        exact List.mem_map_of_mem Transaksi.id ht
      rw [List.map_cons, applyRow_of_eq p tgl hid,
        map_applyRow_of_absent p tgl habs, sumTxL_cons, sumTxL_cons]
      ring
    · have hbne : b.id ≠ tid := by
        intro heq
        apply hnd.1
        rw [heq, ← hid]
        exact List.mem_map_of_mem Transaksi.id hold
      rw [List.map_cons, applyRow_of_ne p tgl hbne, sumTxL_cons, sumTxL_cons,
        ih hnd.2 old hold hid]
      ring

theorem sumTxL_filter_delete {u : String} {k : Int} {tid : Int} :
    ∀ (l : List Transaksi), (l.map Transaksi.id).Nodup →
      ∀ old ∈ l, old.id = tid →
        sumTxL u k (l.filter fun r => !(r.id == tid)) =
          sumTxL u k l - txContrib u k old := by
  intro l
  induction l with
  | nil => intro _ old hold; simp at hold
  | cons b l ih =>
    intro hnd old hold hid
    simp only [List.map_cons, List.nodup_cons] at hnd
    rcases List.mem_cons.mp hold with rfl | hold
    · have habs : ∀ t ∈ l, t.id ≠ tid := by
        intro t ht heq
        apply hnd.1
        rw [hid, ← heq]
        exact List.mem_map_of_mem Transaksi.id ht
      rw [List.filter_cons, if_neg (by simp [hid]), filter_keep_of_absent habs,
        sumTxL_cons]
      ring
    · have hbne : b.id ≠ tid := by
        intro heq
        apply hnd.1
        rw [heq, ← hid]
        exact List.mem_map_of_mem Transaksi.id hold
      rw [List.filter_cons, if_pos (by simp [hbne]), sumTxL_cons, sumTxL_cons,
        ih hnd.2 old hold hid]
      ring

theorem budgetAdd_mem_spec {bs : List Budget} {u : String} {k : Int} {δ : Int} :
    ∀ b2 ∈ budgetAdd bs u k δ, ∃ b ∈ bs,
      b2.user_id = b.user_id ∧ b2.kategori_id = b.kategori_id ∧
      coalesce0 b2.spent =
        coalesce0 b.spent + (if b.user_id = u ∧ b.kategori_id = k then δ else 0) := by
  intro b2 h2
  rcases List.mem_map.mp h2 with ⟨b, hb, heq⟩
  refine ⟨b, hb, ?_⟩
  by_cases hc : (b.user_id == u && b.kategori_id == k) = true
  · simp only [hc, if_pos] at heq
    have hc2 : b.user_id = u ∧ b.kategori_id = k := by
      simpa using hc
    subst heq
    simp [coalesce0, hc2]
  · simp only [hc] at heq
    simp only [Bool.not_eq_true] at hc
    have hc2 : ¬(b.user_id = u ∧ b.kategori_id = k) := by
      intro hcon
      simp [hcon.1, hcon.2] at hc
    subst heq
    simp [hc2]

theorem budgetSubFloor_mem_spec {bs : List Budget} {u : String} {k : Int} {amt : Int} :
    ∀ b2 ∈ budgetSubFloor bs u k amt, ∃ b ∈ bs,
      b2.user_id = b.user_id ∧ b2.kategori_id = b.kategori_id ∧
      coalesce0 b2.spent =
        (if b.user_id = u ∧ b.kategori_id = k then max (coalesce0 b.spent - amt) 0
         else coalesce0 b.spent) := by
  intro b2 h2
  rcases List.mem_map.mp h2 with ⟨b, hb, heq⟩
  refine ⟨b, hb, ?_⟩
  by_cases hc : (b.user_id == u && b.kategori_id == k) = true
  · simp only [hc, if_pos] at heq
    have hc2 : b.user_id = u ∧ b.kategori_id = k := by
      simpa using hc
    subst heq
    simp [coalesce0, hc2]
  · simp only [hc] at heq
    simp only [Bool.not_eq_true] at hc
    have hc2 : ¬(b.user_id = u ∧ b.kategori_id = k) := by
      intro hcon
      simp [hcon.1, hcon.2] at hc
    subst heq
    simp [hc2]

theorem create_ok_inv {db : DB} {u : String} {p : CreateTransaksiRequest} {db2 : DB}
    {t : Transaksi} (h : create_transaksi db u p = Except.ok (db2, t)) :
    0 < p.jumlah ∧ categoryExists db p.kategori_id = true ∧
      ∃ d, parseDate p.tanggal = some d ∧
        t = { id := db.nextTransaksiId, user_id := u, kategori_id := p.kategori_id,
              jumlah := p.jumlah, deskripsi := strTrim p.deskripsi, tanggal := d,
              created_at := db.nextCreatedAt } ∧
        db2 = { db with
                  transaksi := db.transaksi ++ [t]
                  budgets := budgetAdd db.budgets u p.kategori_id p.jumlah
                  nextTransaksiId := db.nextTransaksiId + 1
                  nextCreatedAt := db.nextCreatedAt + 1 } := by
  unfold create_transaksi at h
  split at h
  · simp at h
  · split at h
    · simp at h
    · split at h
      · simp at h
      · rename_i hj _ d hd
        split at h
        · rename_i hcat
          simp only [Except.ok.injEq, Prod.mk.injEq] at h
          refine ⟨by omega, hcat, d, hd, h.2.symm, ?_⟩
          rw [← h.1, ← h.2]
        · simp at h

theorem update_ok_inv {db : DB} {u : String} {tid : Int} {pay : UpdateTransaksiRequest}
    {db2 : DB} {t2 : Transaksi}
    (h : update_transaksi db u tid pay = Except.ok (db2, t2)) :
    ∃ old, db.transaksi.find? (fun t => t.id == tid && t.user_id == u) = some old ∧
      ∃ tgl, parseTanggalField pay.tanggal = Except.ok tgl ∧
        kategoriOk db pay.kategori_id = true ∧
        t2 = mergeTx old pay tgl ∧
        db2 = { db with
                  transaksi := db.transaksi.map (applyRow tid pay tgl)
                  budgets :=
                    match pay.kategori_id with
                    | some nk =>
                      if nk != old.kategori_id then
                        budgetAdd (budgetSubFloor db.budgets u old.kategori_id old.jumlah)
                          u nk (mergeTx old pay tgl).jumlah
                      else
                        budgetAdd db.budgets u old.kategori_id
                          ((mergeTx old pay tgl).jumlah - old.jumlah)
                    | none =>
                      budgetAdd db.budgets u old.kategori_id
                        ((mergeTx old pay tgl).jumlah - old.jumlah) } := by
  unfold update_transaksi at h
  split at h
  · simp at h
  · rename_i old hfind
    split at h
    · simp at h
    · rename_i tgl htgl
      split at h
      · rename_i hkat
        simp only [Except.ok.injEq, Prod.mk.injEq] at h
        exact ⟨old, hfind, tgl, htgl, hkat, h.2.symm, h.1.symm⟩
      · simp at h

theorem delete_ok_inv {db : DB} {u : String} {tid : Int} {db2 : DB}
    (h : delete_transaksi db u tid = Except.ok db2) :
    ∃ old, db.transaksi.find? (fun t => t.id == tid && t.user_id == u) = some old ∧
      db2 = { db with
                transaksi := db.transaksi.filter (fun r => !(r.id == tid))
                budgets := budgetSubFloor db.budgets u old.kategori_id old.jumlah } := by
  unfold delete_transaksi at h
  split at h
  · simp at h
  · rename_i old hfind
    simp only [Except.ok.injEq] at h
    exact ⟨old, hfind, h.symm⟩

theorem inv_create {u : String} {k : Int} {db : DB} (hinv : LedgerInv u k db)
    (p : CreateTransaksiRequest) : LedgerInv u k (applyOp u db (LedgerOp.create p)) := by
  cases hres : create_transaksi db u p with
  | error e =>
    simpa only [applyOp, hres] using hinv
  | ok r =>
    obtain ⟨db2, t⟩ := r
    simp only [applyOp, hres]
    obtain ⟨hj, hcat, d, hd, ht, hdb2⟩ := create_ok_inv hres
    subst hdb2
    have htu : t.user_id = u := by rw [ht]
    have htj : t.jumlah = p.jumlah := by rw [ht]
    have htk : t.kategori_id = p.kategori_id := by rw [ht]
    have hti : t.id = db.nextTransaksiId := by rw [ht]
    have hsum : sumTxL u k (db.transaksi ++ [t]) = sumTx db u k + txContrib u k t := by
      rw [sumTxL_append, sumTxL_cons, sumTxL_nil, sumTx]
      ring
    constructor
    · intro x hx
      rcases List.mem_append.mp hx with hx | hx
      · exact hinv.userAll x hx
      · simp at hx
        rw [hx, htu]
    · intro x hx
      rcases List.mem_append.mp hx with hx | hx
      · exact hinv.posAll x hx
      · simp at hx
        rw [hx, htj]
        exact hj
    · intro x hx
      rcases List.mem_append.mp hx with hx | hx
      · have := hinv.idBound x hx
        simp only []
        omega
      · simp at hx
        rw [hx, hti]
        simp only []
        omega
    · simp only [List.map_append, List.map_cons, List.map_nil]
      rw [List.nodup_append]
      refine ⟨hinv.nodupIds, by simp, ?_⟩
      intro a ha hb
      simp at hb
      rcases List.mem_map.mp ha with ⟨x, hx, hxa⟩
      have := hinv.idBound x hx
      rw [hb, hti] at hxa
      omega
    · intro b2 hb2 hbu hbk
      obtain ⟨b, hb, hbu2, hbk2, hco⟩ := budgetAdd_mem_spec b2 hb2
      have hbu3 : b.user_id = u := by rw [← hbu2, hbu]
      have hbk3 : b.kategori_id = k := by rw [← hbk2, hbk]
      have hcons := hinv.consistent b hb hbu3 hbk3
      have hcontrib : txContrib u k t = if p.kategori_id = k then p.jumlah else 0 := by
        unfold txContrib
        rw [htu, htk, htj]
        by_cases hpk : p.kategori_id = k
        · simp [hpk]
        · simp [hpk]
      simp only [sumTx] at *
      rw [hsum, hco, hcons]
      by_cases hpk : p.kategori_id = k
      · rw [hcontrib, if_pos hpk, if_pos ⟨hbu3, hbk3 ▸ hpk.symm ▸ rfl⟩]
      · have hnc : ¬(b.user_id = u ∧ b.kategori_id = p.kategori_id) := by
          intro hcon
          exact hpk (by rw [← hcon.2, hbk3])
        rw [hcontrib, if_neg hpk, if_neg hnc]

theorem mergeTx_jumlah (t : Transaksi) (p : UpdateTransaksiRequest) (tgl : Option Date) :
    (mergeTx t p tgl).jumlah = p.jumlah.getD t.jumlah := rfl

theorem mergeTx_kategori (t : Transaksi) (p : UpdateTransaksiRequest) (tgl : Option Date) :
    (mergeTx t p tgl).kategori_id = p.kategori_id.getD t.kategori_id := rfl

theorem consistent_budgetAdd {bs : List Budget} {u : String} {k kc : Int} {δ S : Int}
    (hS : ∀ b ∈ bs, b.user_id = u → b.kategori_id = k → coalesce0 b.spent = S) :
    ∀ b2 ∈ budgetAdd bs u kc δ, b2.user_id = u → b2.kategori_id = k →
      coalesce0 b2.spent = S + (if kc = k then δ else 0) := by
  intro b2 hb2 hbu hbk
  obtain ⟨b, hb, hbu2, hbk2, hco⟩ := budgetAdd_mem_spec b2 hb2
  have hbu3 : b.user_id = u := by rw [← hbu2, hbu]
  have hbk3 : b.kategori_id = k := by rw [← hbk2, hbk]
  rw [hco, hS b hb hbu3 hbk3]
  by_cases hkc : kc = k
  · rw [if_pos hkc, if_pos ⟨hbu3, by rw [hbk3, hkc]⟩]
  · rw [if_neg hkc, if_neg]
    intro hcon
    exact hkc (by rw [← hcon.2, hbk3])

theorem consistent_budgetSubFloor {bs : List Budget} {u : String} {k kc : Int}
    {amt S : Int}
    (hS : ∀ b ∈ bs, b.user_id = u → b.kategori_id = k → coalesce0 b.spent = S) :
    ∀ b2 ∈ budgetSubFloor bs u kc amt, b2.user_id = u → b2.kategori_id = k →
      coalesce0 b2.spent = (if kc = k then max (S - amt) 0 else S) := by
  intro b2 hb2 hbu hbk
  obtain ⟨b, hb, hbu2, hbk2, hco⟩ := budgetSubFloor_mem_spec b2 hb2
  have hbu3 : b.user_id = u := by rw [← hbu2, hbu]
  have hbk3 : b.kategori_id = k := by rw [← hbk2, hbk]
  rw [hco, hS b hb hbu3 hbk3]
  by_cases hkc : kc = k
  · rw [if_pos hkc, if_pos ⟨hbu3, by rw [hbk3, hkc]⟩]
  · rw [if_neg hkc, if_neg]
    intro hcon
    exact hkc (by rw [← hcon.2, hbk3])

theorem inv_update {u : String} {k : Int} {db : DB} (hinv : LedgerInv u k db)
    (tid : Int) (pay : UpdateTransaksiRequest)
    (hsafe : ∀ j, pay.jumlah = some j → 0 < j) :
    LedgerInv u k (applyOp u db (LedgerOp.update tid pay)) := by
  cases hres : update_transaksi db u tid pay with
  | error e =>
    simpa only [applyOp, hres] using hinv
  | ok r =>
    obtain ⟨db2, t2⟩ := r
    simp only [applyOp, hres]
    obtain ⟨old, hfind, tgl, htgl, hkat, ht2, hdb2⟩ := update_ok_inv hres
    subst hdb2
    have hmem : old ∈ db.transaksi := List.mem_of_find?_eq_some hfind
    have hpred := List.find?_some hfind
    simp only [Bool.and_eq_true, beq_iff_eq] at hpred
    obtain ⟨hoid, hou⟩ := hpred
    have hnewpos : 0 < (mergeTx old pay tgl).jumlah := by
      rw [mergeTx_jumlah]
      cases hpj : pay.jumlah with
      | none => exact hinv.posAll old hmem
      | some j =>
        simp only [Option.getD_some]
        exact hsafe j hpj
    have hsum2 : sumTxL u k (db.transaksi.map (applyRow tid pay tgl)) =
        sumTx db u k - txContrib u k old + txContrib u k (mergeTx old pay tgl) :=
      sumTxL_map_applyRow pay tgl db.transaksi hinv.nodupIds old hmem hoid
    have hcontrib_old : txContrib u k old =
        if old.kategori_id = k then old.jumlah else 0 := by
      unfold txContrib
      rw [hou]
      by_cases hc : old.kategori_id = k
      · simp [hc]
      · simp [hc]
    have hcontrib_new : txContrib u k (mergeTx old pay tgl) =
        if (mergeTx old pay tgl).kategori_id = k then (mergeTx old pay tgl).jumlah
        else 0 := by
      unfold txContrib
      rw [mergeTx_user, hou]
      by_cases hc : (mergeTx old pay tgl).kategori_id = k
      · simp [hc]
      · simp [hc]
    constructor
    · intro x hx
      rcases List.mem_map.mp hx with ⟨y, hy, hyx⟩
      rw [← hyx, applyRow_user]
      exact hinv.userAll y hy
    · intro x hx
      rcases List.mem_map.mp hx with ⟨y, hy, hyx⟩
      rw [← hyx]
      unfold applyRow
      split
      · rw [mergeTx_jumlah]
        cases hpj : pay.jumlah with
        | none => exact hinv.posAll y hy
        | some j =>
          simp only [Option.getD_some]
          exact hsafe j hpj
      · exact hinv.posAll y hy
    · intro x hx
      rcases List.mem_map.mp hx with ⟨y, hy, hyx⟩
      rw [← hyx]
      have := hinv.idBound y hy
      simp only [applyRow_id]
      exact this
    · show ((db.transaksi.map (applyRow tid pay tgl)).map Transaksi.id).Nodup
      rw [List.map_map]
      have hfg : Transaksi.id ∘ applyRow tid pay tgl = Transaksi.id :=
        funext (applyRow_id tid pay tgl)
      rw [hfg]
      exact hinv.nodupIds
    · intro b2 hb2 hbu hbk
      show coalesce0 b2.spent = sumTxL u k (db.transaksi.map (applyRow tid pay tgl))
      rw [hsum2, hcontrib_old, hcontrib_new]
      cases hpk : pay.kategori_id with
      | none =>
        rw [hpk] at hb2
        simp only [] at hb2
        have hnk : (mergeTx old pay tgl).kategori_id = old.kategori_id := by
          rw [mergeTx_kategori, hpk]
          rfl
        have := consistent_budgetAdd hinv.consistent b2 hb2 hbu hbk
        rw [this, hnk]
        by_cases hc : old.kategori_id = k
        · simp only [if_pos hc]
          ring
        · simp only [if_neg hc]
          ring
      | some nk =>
        rw [hpk] at hb2
        simp only [] at hb2
        have hnk : (mergeTx old pay tgl).kategori_id = nk := by
          rw [mergeTx_kategori, hpk]
          rfl
        by_cases hne : nk = old.kategori_id
        · rw [if_neg (by simp [hne])] at hb2
          have := consistent_budgetAdd hinv.consistent b2 hb2 hbu hbk
          rw [this, hnk, hne]
          by_cases hc : old.kategori_id = k
          · simp only [if_pos hc]
            ring
          · simp only [if_neg hc]
            ring
        · rw [if_pos (by simp [hne])] at hb2
          have hmid : ∀ b1 ∈ budgetSubFloor db.budgets u old.kategori_id old.jumlah,
              b1.user_id = u → b1.kategori_id = k →
              coalesce0 b1.spent =
                (if old.kategori_id = k then max (sumTx db u k - old.jumlah) 0
                 else sumTx db u k) :=
            consistent_budgetSubFloor hinv.consistent
          have := consistent_budgetAdd hmid b2 hb2 hbu hbk
          rw [this, hnk]
          by_cases hc : old.kategori_id = k
          · have hnkk : ¬ nk = k := by
              intro hcon
              exact hne (by rw [hcon, hc])
            have hle : old.jumlah ≤ sumTx db u k := by
              have := txContrib_le_sumTxL (u := u) (k := k) hmem hinv.posAll
              rw [hcontrib_old, if_pos hc] at this
              exact this
            rw [if_pos hc, if_neg hnkk, max_eq_left (by omega : (0 : Int) ≤ sumTx db u k - old.jumlah)]
            simp only [if_pos hc]
          · simp only [if_neg hc]
            ring

theorem inv_delete {u : String} {k : Int} {db : DB} (hinv : LedgerInv u k db)
    (tid : Int) : LedgerInv u k (applyOp u db (LedgerOp.delete tid)) := by
  cases hres : delete_transaksi db u tid with
  | error e =>
    simpa only [applyOp, hres] using hinv
  | ok db2 =>
    simp only [applyOp, hres]
    obtain ⟨old, hfind, hdb2⟩ := delete_ok_inv hres
    subst hdb2
    have hmem : old ∈ db.transaksi := List.mem_of_find?_eq_some hfind
    have hpred := List.find?_some hfind
    simp only [Bool.and_eq_true, beq_iff_eq] at hpred
    obtain ⟨hoid, hou⟩ := hpred
    have hsum2 : sumTxL u k (db.transaksi.filter fun r => !(r.id == tid)) =
        sumTx db u k - txContrib u k old :=
      sumTxL_filter_delete db.transaksi hinv.nodupIds old hmem hoid
    have hcontrib_old : txContrib u k old =
        if old.kategori_id = k then old.jumlah else 0 := by
      unfold txContrib
      rw [hou]
      by_cases hc : old.kategori_id = k
      · simp [hc]
      · simp [hc]
    constructor
    · intro x hx
      exact hinv.userAll x (List.mem_of_mem_filter hx)
    · intro x hx
      exact hinv.posAll x (List.mem_of_mem_filter hx)
    · intro x hx
      exact hinv.idBound x (List.mem_of_mem_filter hx)
    · show ((db.transaksi.filter fun r => !(r.id == tid)).map Transaksi.id).Nodup
      exact hinv.nodupIds.sublist ((List.filter_sublist db.transaksi).map Transaksi.id)
    · intro b2 hb2 hbu hbk
      show coalesce0 b2.spent = sumTxL u k (db.transaksi.filter fun r => !(r.id == tid))
      rw [hsum2, hcontrib_old]
      have hmid : ∀ b1 ∈ budgetSubFloor db.budgets u old.kategori_id old.jumlah,
          b1.user_id = u → b1.kategori_id = k →
          coalesce0 b1.spent =
            (if old.kategori_id = k then max (sumTx db u k - old.jumlah) 0
             else sumTx db u k) :=
        consistent_budgetSubFloor hinv.consistent
      rw [hmid b2 hb2 hbu hbk]
      by_cases hc : old.kategori_id = k
      · have hle : old.jumlah ≤ sumTx db u k := by
          have := txContrib_le_sumTxL (u := u) (k := k) hmem hinv.posAll
          rw [hcontrib_old, if_pos hc] at this
          exact this
        rw [if_pos hc, max_eq_left (by omega : (0 : Int) ≤ sumTx db u k - old.jumlah)]
        simp only [if_pos hc]
      · simp only [if_neg hc]
        ring

theorem inv_step {u : String} {k : Int} {db : DB} (hinv : LedgerInv u k db)
    {op : LedgerOp} (hsafe : AmountSafe op) : LedgerInv u k (applyOp u db op) := by
  cases op with
  | create p => exact inv_create hinv p
  | update tid pay => exact inv_update hinv tid pay hsafe
  | delete tid => exact inv_delete hinv tid

theorem inv_scanl {u : String} {k : Int} :
    ∀ (ops : List LedgerOp) (db0 : DB), LedgerInv u k db0 →
      (∀ op ∈ ops, AmountSafe op) →
      ∀ db ∈ List.scanl (applyOp u) db0 ops, LedgerInv u k db := by
  intro ops
  induction ops with
  | nil =>
    intro db0 hinv _ db hdb
    simp [List.scanl] at hdb
    rw [hdb]
    exact hinv
  | cons op ops ih =>
    intro db0 hinv hsafe db hdb
    simp only [List.scanl, List.mem_cons] at hdb
    rcases hdb with rfl | hdb
    · exact hinv
    · exact ih (applyOp u db0 op) (inv_step hinv (hsafe op (by simp)))
        (fun o ho => hsafe o (by simp [ho])) db hdb

/-- Maximum form of the cached aggregate: under the invariant the ledger sum
is nonnegative, so the floor in the claim is inactive. -/
theorem inv_consistent_max {u : String} {k : Int} {db : DB} (hinv : LedgerInv u k db) :
    ∀ b ∈ db.budgets, b.user_id = u → b.kategori_id = k →
      coalesce0 b.spent = max 0 (sumTx db u k) := by
  intro b hb hbu hbk
  have hnn : 0 ≤ sumTx db u k := sumTxL_nonneg hinv.posAll
  rw [hinv.consistent b hb hbu hbk, max_eq_right hnn]

theorem forall2_map_self {α β : Type} (R : α → β → Prop) (f : α → β) :
    ∀ l : List α, (∀ a ∈ l, R a (f a)) → List.Forall₂ R l (l.map f) := by
  intro l
  induction l with
  | nil =>
    intro _
    simp only [List.map_nil]
    exact List.Forall₂.nil
  | cons a l ih =>
    intro h
    simp only [List.map_cons]
    exact List.Forall₂.cons (h a (by simp)) (ih fun x hx => h x (by simp [hx]))

/-! Claim C1: ledger/aggregate consistency of the mutation coordinator. -/

/-- C1 (counterexample): the claim as stated is false.  Starting from the
claim's own preconditions — an empty ledger and a pre-existing drift-free
budget row for (c1user, category 5) — the operation sequence
[create amount 3000, update amount to -8] is accepted by the coordinator (the
update handler never re-validates the amount), after which the budget row
holds spent = -8 while max 0 (Σ remaining amounts) = max 0 (-8) = 0. -/
theorem c1_counterexample :
    c1db0.transaksi = [] ∧
    (∀ b ∈ c1db0.budgets, b.user_id = c1user → b.kategori_id = 5 →
      coalesce0 b.spent = 0) ∧
    ¬ (∀ db ∈ List.scanl (applyOp c1user) c1db0 c1ops,
        ∀ b ∈ db.budgets, b.user_id = c1user → b.kategori_id = 5 →
          coalesce0 b.spent = max 0 (sumTx db c1user 5)) := by decide

/-- C1 (amended): for every sequence of coordinator operations on a
(user, category) pair whose budget pre-exists with spent = 0 and whose ledger
starts empty (no transaction predates the budget, no manual drift), and in
which every update that supplies an amount supplies a positive one (the
restriction the counterexample forces, since the update handler accepts
non-positive amounts), after each operation every budget row of the pair
caches exactly max 0 (Σ amounts of the remaining transactions of that user in
that category). -/
theorem c1_theorem (db0 : DB) (u : String) (k : Int) (ops : List LedgerOp)
    (h0 : db0.transaksi = [])
    (hb0 : ∀ b ∈ db0.budgets, b.user_id = u → b.kategori_id = k →
      coalesce0 b.spent = 0)
    (hsafe : ∀ op ∈ ops, AmountSafe op) :
    ∀ db ∈ List.scanl (applyOp u) db0 ops,
      ∀ b ∈ db.budgets, b.user_id = u → b.kategori_id = k →
        coalesce0 b.spent = max 0 (sumTx db u k) := by
  have hinv0 : LedgerInv u k db0 := by
    constructor
    · intro t ht
      rw [h0] at ht
      simp at ht
    · intro t ht
      rw [h0] at ht
      simp at ht
    · intro t ht
      rw [h0] at ht
      simp at ht
    · rw [h0]
      exact List.nodup_nil
    · intro b hb hbu hbk
      rw [hb0 b hb hbu hbk, sumTx, h0, sumTxL_nil]
  intro db hdb
  exact inv_consistent_max (inv_scanl ops db0 hinv0 hsafe db hdb)

/-- C1 (witness): the specification's worked scenario — create 3000, create
5000, delete the first — run through the amended theorem: the final state is
reached, its budget row is the one with spent = 5000, and the theorem's
conclusion holds for it. -/
theorem c1_witness :
    coalesce0 c1finalBudget.spent = max 0 (sumTx c1final c1user 5) :=
  c1_theorem c1db0 c1user 5 c1wops (by decide) (by decide) (by decide)
    c1final (by decide) c1finalBudget (by decide) (by decide) (by decide)

/-! Claim C2: validation of partial updates. -/

/-- C2 (counterexample): the claim as stated is false.  On a state with an
existing owned transaction of amount 3000, the update supplying amount = 0 is
not rejected: it succeeds, writes amount 0 to the row, and adjusts the budget
from 3000 down to 0 — so a supplied amount is not put through Create's
`amount > 0` validation. -/
theorem c2_counterexample :
    (update_transaksi c2db c2uid 1 c2pay).toOption.map (fun r => r.2.jumlah) =
      some 0 ∧
    (update_transaksi c2db c2uid 1 c2pay).toOption.map
      (fun r => r.1.budgets.map (fun b => coalesce0 b.spent)) = some [0] := by decide

/-- C2 (amended): for updates of an existing owned transaction, a supplied
date must pass the same parse validation as Create and a violation is
rejected as a client error before any write; a supplied category id must
exist; but a supplied amount is NOT re-validated — any amount, including 0 and
negatives, is accepted and written whenever the date and category checks
pass. -/
theorem c2_theorem (db : DB) (u : String) (tid : Int) (pay : UpdateTransaksiRequest)
    (old : Transaksi)
    (hfind : db.transaksi.find? (fun t => t.id == tid && t.user_id == u) = some old) :
    (∀ s, pay.tanggal = some s → parseDate s = none →
      update_transaksi db u tid pay =
        Except.error (ApiError.badRequest msgTanggalInvalid)) ∧
    (∀ j, pay.jumlah = some j →
      (pay.tanggal = none ∨ ∃ s d, pay.tanggal = some s ∧ parseDate s = some d) →
      kategoriOk db pay.kategori_id = true →
      ∃ db2 t2, update_transaksi db u tid pay = Except.ok (db2, t2) ∧
        t2.jumlah = j) := by
  constructor
  · intro s hs hps
    have hpt : parseTanggalField pay.tanggal =
        Except.error (ApiError.badRequest msgTanggalInvalid) := by
      rw [hs]
      simp only [parseTanggalField, hps]
    simp only [update_transaksi, hfind, hpt]
  · intro j hj hdate hkat
    have htgl : ∃ tgl, parseTanggalField pay.tanggal = Except.ok tgl := by
      rcases hdate with hnone | ⟨s, d, hs, hpd⟩
      · exact ⟨none, by rw [hnone]; rfl⟩
      · refine ⟨some d, ?_⟩
        rw [hs]
        simp only [parseTanggalField, hpd]
    obtain ⟨tgl, htgl⟩ := htgl
    simp only [update_transaksi, hfind, htgl, if_pos hkat]
    refine ⟨_, _, rfl, ?_⟩
    rw [mergeTx_jumlah, hj]
    rfl

/-- C2 (witness): on the concrete state, an update with the unparseable date
string is rejected with the date error, while an update supplying the
negative amount -5 is accepted and writes -5. -/
theorem c2_witness :
    update_transaksi c2db c2uid 1 c2badpay =
      Except.error (ApiError.badRequest msgTanggalInvalid) ∧
    ∃ db2 t2, update_transaksi c2db c2uid 1 c2negpay = Except.ok (db2, t2) ∧
      t2.jumlah = -5 := by
  constructor
  · exact (c2_theorem c2db c2uid 1 c2badpay c2tx (by decide)).1 ("not-a-date") rfl
      (by decide)
  · exact (c2_theorem c2db c2uid 1 c2negpay c2tx (by decide)).2 (-5) rfl (Or.inl rfl)
      (by decide)

/-! Claim C10: validation of creates. -/

/-- C10: a Create with amount ≤ 0 is rejected with the client error naming the
amount field ("Jumlah harus lebih dari 0.") and, the handler being rejection-
before-write, no state is produced — the ledger and budgets are untouched;
a Create with amount 1 passes the amount validation, and succeeds outright
whenever the remaining field validations pass. -/
theorem c10_theorem (db : DB) (u : String) (p : CreateTransaksiRequest) :
    (p.jumlah ≤ 0 →
      create_transaksi db u p = Except.error (ApiError.badRequest msgJumlahPositif)) ∧
    (p.jumlah = 1 → (strTrim p.deskripsi).data.isEmpty = false →
      (∃ d, parseDate p.tanggal = some d) →
      categoryExists db p.kategori_id = true →
      ∃ db2 t, create_transaksi db u p = Except.ok (db2, t) ∧ t.jumlah = 1) := by
  constructor
  · intro hj
    unfold create_transaksi
    rw [if_pos hj]
  · intro hj hdesc hdate hcat
    obtain ⟨d, hd⟩ := hdate
    have h1 : ¬ p.jumlah ≤ 0 := by omega
    have h2 : ¬ ((strTrim p.deskripsi).data.isEmpty = true) := by simp [hdesc]
    unfold create_transaksi
    rw [if_neg h1, if_neg h2]
    simp only [hd]
    rw [if_pos hcat]
    exact ⟨_, _, rfl, hj⟩

/-- C10 (witness): on the concrete state, creating with amount 0 is rejected
with the amount error, and creating with amount 1 succeeds. -/
theorem c10_witness :
    create_transaksi c10db c10uid c10zero =
      Except.error (ApiError.badRequest msgJumlahPositif) ∧
    ∃ db2 t, create_transaksi c10db c10uid c10one = Except.ok (db2, t) ∧
      t.jumlah = 1 := by
  constructor
  · exact (c10_theorem c10db c10uid c10zero).1 (by decide)
  · exact (c10_theorem c10db c10uid c10one).2 (by decide) (by decide)
      ⟨⟨19783⟩, by decide⟩ (by decide)

/-! Claim C3: hardcoded fallback user on the dashboard path. -/

/-- C3: whenever the requested user has zero transactions in the ledger, the
dashboard computes the entire response — totals, highs, lows, the weekly
series and the recent-transactions list — for the hardcoded alternate user
8787368b-3437-4440-9d99-0675386f1626 instead of the requested user. -/
theorem c3_theorem (db : DB) (uid : String) (today : Date)
    (h : userTxCount db uid = 0) :
    get_dashboard_data db uid today = dashboardFor db fallbackUserId today := by
  unfold get_dashboard_data actualDashboardUser
  rw [h]
  rfl

/-- C3 (witness): a user with no transactions receives the fallback user's
dashboard, whose daily total (7, from the fallback user's only transaction) is
visibly not the requested user's empty data. -/
theorem c3_witness :
    get_dashboard_data c3db c3uid ⟨19783⟩ = dashboardFor c3db fallbackUserId ⟨19783⟩ ∧
    (get_dashboard_data c3db c3uid ⟨19783⟩).total_hari_ini = 7 :=
  ⟨c3_theorem c3db c3uid ⟨19783⟩ (by decide), by decide⟩

/-! Claim C4: delete removes the row and decrements the budget, floored at
zero. -/

/-- C4: deleting an existing owned transaction of amount A removes the row
(no row with that id remains, all other rows survive) and updates the
(user, category) budget rows to max (spent - A) 0 — so the new spent is never
negative — while all other budget rows keep their spent unchanged. -/
theorem c4_theorem (db : DB) (u : String) (tid : Int) (t : Transaksi)
    (hfind : db.transaksi.find? (fun x => x.id == tid && x.user_id == u) = some t) :
    ∃ db2, delete_transaksi db u tid = Except.ok db2 ∧
      (∀ r ∈ db2.transaksi, r.id ≠ tid) ∧
      (∀ r ∈ db.transaksi, r.id ≠ tid → r ∈ db2.transaksi) ∧
      List.Forall₂ (fun b b2 =>
        b2.user_id = b.user_id ∧ b2.kategori_id = b.kategori_id ∧
        coalesce0 b2.spent =
          (if b.user_id = u ∧ b.kategori_id = t.kategori_id then
            max (coalesce0 b.spent - t.jumlah) 0
           else coalesce0 b.spent) ∧
        (b.user_id = u → b.kategori_id = t.kategori_id → 0 ≤ coalesce0 b2.spent))
        db.budgets db2.budgets := by
  simp only [delete_transaksi, hfind]
  refine ⟨_, rfl, ?_, ?_, ?_⟩
  · intro r hr
    have := List.of_mem_filter hr
    simpa using this
  · intro r hr hne
    exact List.mem_filter.mpr ⟨hr, by simpa using hne⟩
  · show List.Forall₂ _ db.budgets (budgetSubFloor db.budgets u t.kategori_id t.jumlah)
    unfold budgetSubFloor
    apply forall2_map_self
    intro b _
    by_cases hcb : (b.user_id == u && b.kategori_id == t.kategori_id) = true
    · have hcp : b.user_id = u ∧ b.kategori_id = t.kategori_id := by simpa using hcb
      rw [if_pos hcb]
      refine ⟨rfl, rfl, ?_, ?_⟩
      · rw [if_pos hcp]
        rfl
      · intro _ _
        exact le_max_right _ _
    · have hcp : ¬ (b.user_id = u ∧ b.kategori_id = t.kategori_id) := by
        intro hcon
        simp [hcon.1, hcon.2] at hcb
      rw [if_neg hcb]
      refine ⟨rfl, rfl, by rw [if_neg hcp], ?_⟩
      intro h1 h2
      exact absurd ⟨h1, h2⟩ hcp

/-- C4 (witness): deleting the amount-10 transaction from a budget that had
drifted to spent = 5 produces spent = max (5 - 10) 0 = 0, not -5. -/
theorem c4_witness :
    ∃ db2, delete_transaksi c4db c4uid 1 = Except.ok db2 ∧
      List.Forall₂ (fun b b2 =>
        coalesce0 b2.spent =
          (if b.user_id = c4uid ∧ b.kategori_id = c4tx.kategori_id then
            max (coalesce0 b.spent - c4tx.jumlah) 0
           else coalesce0 b.spent))
        c4db.budgets db2.budgets ∧
      db2.budgets.map (fun b => coalesce0 b.spent) = [0] := by
  obtain ⟨db2, hdel, _, _, hf⟩ := c4_theorem c4db c4uid 1 c4tx (by decide)
  refine ⟨db2, hdel, List.Forall₂.imp (fun _ _ h => h.2.2.1) hf, ?_⟩
  have : db2 = { c4db with
      transaksi := c4db.transaksi.filter (fun r => !(r.id == (1 : Int)))
      budgets := budgetSubFloor c4db.budgets c4uid c4tx.kategori_id c4tx.jumlah } := by
    have h2 := delete_ok_inv hdel
    obtain ⟨old, hfind2, hdb2⟩ := h2
    have : old = c4tx := by
      have : some old = some c4tx := by rw [← hfind2]; decide
      exact Option.some.inj this
    rw [hdb2, this]
  rw [this]
  decide

/-! Claim C5: update that moves a transaction between categories. -/

/-- C5: an accepted update that changes a transaction's category from X to Y
decrements every (user, X) budget row by the old amount floored at zero, and
increments every (user, Y) budget row by the post-update amount — the supplied
amount when present, otherwise the unchanged original amount; all other budget
rows are untouched, and the returned transaction carries the post-update
amount. -/
theorem c5_theorem (db : DB) (u : String) (tid : Int) (pay : UpdateTransaksiRequest)
    (old : Transaksi) (nk : Int)
    (hfind : db.transaksi.find? (fun x => x.id == tid && x.user_id == u) = some old)
    (hpk : pay.kategori_id = some nk)
    (hne : nk ≠ old.kategori_id)
    (hdate : pay.tanggal = none ∨ ∃ s d, pay.tanggal = some s ∧ parseDate s = some d)
    (hcat : categoryExists db nk = true) :
    ∃ db2 t2, update_transaksi db u tid pay = Except.ok (db2, t2) ∧
      t2.jumlah = pay.jumlah.getD old.jumlah ∧
      List.Forall₂ (fun b b2 =>
        b2.user_id = b.user_id ∧ b2.kategori_id = b.kategori_id ∧
        coalesce0 b2.spent =
          (if b.user_id = u ∧ b.kategori_id = old.kategori_id then
             max (coalesce0 b.spent - old.jumlah) 0
           else if b.user_id = u ∧ b.kategori_id = nk then
             coalesce0 b.spent + pay.jumlah.getD old.jumlah
           else coalesce0 b.spent))
        db.budgets db2.budgets := by
  have htgl : ∃ tgl, parseTanggalField pay.tanggal = Except.ok tgl := by
    rcases hdate with hnone | ⟨s, d, hs, hpd⟩
    · exact ⟨none, by rw [hnone]; rfl⟩
    · refine ⟨some d, ?_⟩
      rw [hs]
      simp only [parseTanggalField, hpd]
  obtain ⟨tgl, htgl⟩ := htgl
  have hkOk : kategoriOk db pay.kategori_id = true := by
    rw [hpk]
    exact hcat
  have hbne : (nk != old.kategori_id) = true := by simpa using hne
  simp only [update_transaksi, hfind, htgl]
  rw [if_pos hkOk]
  simp only [hpk]
  rw [if_pos hbne]
  refine ⟨_, _, rfl, mergeTx_jumlah old pay tgl, ?_⟩
  show List.Forall₂ _ db.budgets
    (budgetAdd (budgetSubFloor db.budgets u old.kategori_id old.jumlah) u nk
      (mergeTx old pay tgl).jumlah)
  unfold budgetAdd budgetSubFloor
  rw [List.map_map]
  apply forall2_map_self
  intro b _
  simp only [Function.comp]
  have hjnew : (mergeTx old pay tgl).jumlah = pay.jumlah.getD old.jumlah :=
    mergeTx_jumlah old pay tgl
  by_cases hcb1 : (b.user_id == u && b.kategori_id == old.kategori_id) = true
  · have hcp1 : b.user_id = u ∧ b.kategori_id = old.kategori_id := by simpa using hcb1
    rw [if_pos hcb1]
    have hcb2 : ¬ ((b.user_id == u && b.kategori_id == nk) = true) := by
      intro hcon
      have : b.kategori_id = nk := by
        have := (Bool.and_eq_true _ _).mp hcon
        simpa using this.2
      exact hne (by rw [← this, hcp1.2])
    rw [if_neg hcb2]
    refine ⟨rfl, rfl, ?_⟩
    rw [if_pos hcp1]
    rfl
  · have hcp1 : ¬ (b.user_id = u ∧ b.kategori_id = old.kategori_id) := by
      intro hcon
      simp [hcon.1, hcon.2] at hcb1
    rw [if_neg hcb1]
    by_cases hcb2 : (b.user_id == u && b.kategori_id == nk) = true
    · have hcp2 : b.user_id = u ∧ b.kategori_id = nk := by simpa using hcb2
      rw [if_pos hcb2]
      refine ⟨rfl, rfl, ?_⟩
      rw [if_neg hcp1, if_pos hcp2, hjnew]
      rfl
    · have hcp2 : ¬ (b.user_id = u ∧ b.kategori_id = nk) := by
        intro hcon
        simp [hcon.1, hcon.2] at hcb2
      rw [if_neg hcb2]
      exact ⟨rfl, rfl, by rw [if_neg hcp1, if_neg hcp2]⟩

/-- C5 (witness): moving the amount-40 transaction from category 5 to
category 6 drives category 5's budget from 40 to 0 and category 6's from 0 to
40. -/
theorem c5_witness :
    ∃ db2 t2, update_transaksi c5db c5uid 1 c5pay = Except.ok (db2, t2) ∧
      t2.jumlah = 40 ∧
      db2.budgets.map (fun b => (b.kategori_id, coalesce0 b.spent)) =
        [(5, 0), (6, 40)] := by
  obtain ⟨db2, t2, hup, hj, _⟩ :=
    c5_theorem c5db c5uid 1 c5pay c5tx 6 (by decide) rfl (by decide) (Or.inl rfl)
      (by decide)
  refine ⟨db2, t2, hup, hj, ?_⟩
  obtain ⟨old2, hfind2, tgl2, htgl2, _, _, hdb2⟩ := update_ok_inv hup
  have hold : old2 = c5tx := by
    have : some old2 = some c5tx := by rw [← hfind2]; decide
    exact Option.some.inj this
  have htg : tgl2 = none := by
    have : parseTanggalField c5pay.tanggal = Except.ok (none : Option Date) := rfl
    rw [this] at htgl2
    exact (Except.ok.inj htgl2).symm
  rw [hdb2, hold, htg]
  decide

/-! Claim C6: totality of date-window resolution. -/

theorem one_le_daysInMonth (y : Int) (m : Nat) : 1 ≤ daysInMonth y m := by
  unfold daysInMonth
  split
  · split <;> omega
  · split <;> omega

theorem fromYmdOpt_day1_isSome (y : Int) (m : Nat) :
    (fromYmdOpt y m 1).isSome = true ↔
      (chronoMinYear ≤ y ∧ y ≤ chronoMaxYear ∧ 1 ≤ m ∧ m ≤ 12) := by
  unfold fromYmdOpt
  by_cases hm : chronoMinYear ≤ y ∧ y ≤ chronoMaxYear ∧ 1 ≤ m ∧ m ≤ 12
  · rw [if_pos ⟨hm.1, hm.2.1, hm.2.2.1, hm.2.2.2, le_refl 1, one_le_daysInMonth y m⟩]
    simpa using hm
  · rw [if_neg (by tauto)]
    simpa using hm

/-- The monthly/default window resolves without panicking exactly when the
effective (year, month) target is a representable chrono date AND — unless
the target is the current year and month, where the end bound is simply
today — the first day of the following month is representable too, which
fails only for December of chrono's maximum year. -/
theorem monthlyWindow_isSome (today : Date) (y? : Option Int) (m? : Option Nat) :
    (monthlyWindow today y? m?).isSome = true ↔
      (chronoMinYear ≤ y?.getD today.year ∧ y?.getD today.year ≤ chronoMaxYear ∧
        1 ≤ m?.getD today.month ∧ m?.getD today.month ≤ 12 ∧
        ((y?.getD today.year = today.year ∧ m?.getD today.month = today.month) ∨
          ¬(m?.getD today.month = 12 ∧ y?.getD today.year = chronoMaxYear))) := by
  unfold monthlyWindow
  cases hfy : fromYmdOpt (y?.getD today.year) (m?.getD today.month) 1 with
  | none =>
    have hnm : ¬ (chronoMinYear ≤ y?.getD today.year ∧
        y?.getD today.year ≤ chronoMaxYear ∧
        1 ≤ m?.getD today.month ∧ m?.getD today.month ≤ 12) := by
      intro hc
      have := (fromYmdOpt_day1_isSome (y?.getD today.year) (m?.getD today.month)).mpr hc
      rw [hfy] at this
      simp at this
    simp only [hfy, Option.isSome_none, Bool.false_eq_true, false_iff]
    intro hc
    exact hnm ⟨hc.1, hc.2.1, hc.2.2.1, hc.2.2.2.1⟩
  | some start =>
    have hok : chronoMinYear ≤ y?.getD today.year ∧
        y?.getD today.year ≤ chronoMaxYear ∧
        1 ≤ m?.getD today.month ∧ m?.getD today.month ≤ 12 :=
      (fromYmdOpt_day1_isSome (y?.getD today.year) (m?.getD today.month)).mp
        (by rw [hfy]; rfl)
    simp only [hfy]
    split
    · rename_i hsame
      have hsame2 : y?.getD today.year = today.year ∧
          m?.getD today.month = today.month := by simpa using hsame
      constructor
      · intro _
        exact ⟨hok.1, hok.2.1, hok.2.2.1, hok.2.2.2, Or.inl hsame2⟩
      · intro _
        trivial
    · rename_i hdiff
      have hdiff2 : ¬ (y?.getD today.year = today.year ∧
          m?.getD today.month = today.month) := by simpa using hdiff
      by_cases h12 : m?.getD today.month = 12
      · have hb : (m?.getD today.month == 12) = true := by simp [h12]
        simp only [if_pos hb]
        by_cases hmax : y?.getD today.year = chronoMaxYear
        · have hfy2 : fromYmdOpt (y?.getD today.year + 1) 1 1 = none := by
            cases hf2 : fromYmdOpt (y?.getD today.year + 1) 1 1 with
            | none => rfl
            | some d =>
              exfalso
              have hs := (fromYmdOpt_day1_isSome (y?.getD today.year + 1) 1).mp
                (by rw [hf2]; rfl)
              have h1 := hs.2.1
              rw [hmax] at h1
              omega
          simp only [hfy2, Option.isSome_none, Bool.false_eq_true, false_iff]
          intro hc
          rcases hc.2.2.2.2 with hsame | hne
          · exact hdiff2 hsame
          · exact hne ⟨h12, hmax⟩
        · have hfy2 : ∃ fn, fromYmdOpt (y?.getD today.year + 1) 1 1 = some fn := by
            apply Option.isSome_iff_exists.mp
            apply (fromYmdOpt_day1_isSome (y?.getD today.year + 1) 1).mpr
            refine ⟨?_, ?_, ?_, ?_⟩
            · have := hok.1
              omega
            · have h1 := hok.2.1
              omega
            · omega
            · omega
          obtain ⟨fn, hfy2⟩ := hfy2
          simp only [hfy2, Option.isSome_some]
          constructor
          · intro _
            exact ⟨hok.1, hok.2.1, hok.2.2.1, hok.2.2.2,
              Or.inr (fun hc => hmax hc.2)⟩
          · intro _
            trivial
      · have hb : ¬ ((m?.getD today.month == 12) = true) := by simp [h12]
        simp only [if_neg hb]
        have hfy2 : ∃ fn,
            fromYmdOpt (y?.getD today.year) (m?.getD today.month + 1) 1 = some fn := by
          apply Option.isSome_iff_exists.mp
          apply (fromYmdOpt_day1_isSome (y?.getD today.year)
            (m?.getD today.month + 1)).mpr
          refine ⟨hok.1, hok.2.1, by omega, ?_⟩
          have h1 := hok.2.2.2
          omega
        obtain ⟨fn, hfy2⟩ := hfy2
        simp only [hfy2, Option.isSome_some]
        constructor
        · intro _
          exact ⟨hok.1, hok.2.1, hok.2.2.1, hok.2.2.2, Or.inr (fun hc => h12 hc.1)⟩
        · intro _
          trivial

theorem get_statistik_isSome (db : DB) (uid : String) (q : StatistikQuery)
    (today : Date) :
    (get_user_statistik db uid q today).isSome = (resolveWindow q today).isSome := by
  unfold get_user_statistik
  cases resolveWindow q today with
  | none => rfl
  | some se =>
    cases se with
    | mk s e => rfl

/-- C6 (counterexample): the claim as stated is false.  With the default
(monthly) filter and month = 13, the handler reaches
`NaiveDate::from_ymd_opt(2024, 13, 1).unwrap()` and panics; in the embedding
the `none` result is that panic, not a response or error. -/
theorem c6_counterexample :
    get_user_statistik c6db c6uid c6q ⟨19783⟩ = none := by decide

/-- C6 (amended): date-window resolution returns a result for the daily and
weekly filters unconditionally, but in the monthly/default branch the handler
panics via unwrap on date construction whenever the effective (year, month)
target — the query parameters when supplied, else today's — is not a
representable chrono date: a month outside 1..=12, a year outside chrono's
range -262144..=262143, or (unless the target is the current year and month,
whose end bound is today itself) December of the maximum year 262143, whose
next-month first day is out of range.  The handler completes exactly in the
complementary cases. -/
theorem c6_theorem (db : DB) (uid : String) (q : StatistikQuery) (today : Date) :
    (get_user_statistik db uid q today).isSome = true ↔
      (q.filter = some strDaily ∨ q.filter = some strWeekly ∨
        (chronoMinYear ≤ q.year.getD today.year ∧
          q.year.getD today.year ≤ chronoMaxYear ∧
          1 ≤ q.month.getD today.month ∧ q.month.getD today.month ≤ 12 ∧
          ((q.year.getD today.year = today.year ∧
              q.month.getD today.month = today.month) ∨
            ¬(q.month.getD today.month = 12 ∧
                q.year.getD today.year = chronoMaxYear)))) := by
  rw [get_statistik_isSome]
  unfold resolveWindow
  by_cases hd : (q.filter == some strDaily) = true
  · rw [if_pos hd]
    have hde : q.filter = some strDaily := by simpa using hd
    simp [hde]
  · rw [if_neg hd]
    by_cases hw : (q.filter == some strWeekly) = true
    · rw [if_pos hw]
      have hwe : q.filter = some strWeekly := by simpa using hw
      simp [hwe]
    · rw [if_neg hw]
      rw [monthlyWindow_isSome today q.year q.month]
      have hd2 : ¬ q.filter = some strDaily := by simpa using hd
      have hw2 : ¬ q.filter = some strWeekly := by simpa using hw
      simp [hd2, hw2]

/-- C6 (witness): the amended characterization instantiated on concrete
queries and today = 2024-03-01.  The panic cases: month = 13; an in-range
month with the out-of-range year 300000; and December of the maximum year
262143 (the next-month unwrap).  The completing cases: a daily query even
with a bad month, and a past in-range monthly target. -/
theorem c6_witness :
    (get_user_statistik c6db c6uid c6q ⟨19783⟩).isSome = false ∧
    (get_user_statistik c6db c6uid c6qYear ⟨19783⟩).isSome = false ∧
    (get_user_statistik c6db c6uid c6qMaxDec ⟨19783⟩).isSome = false ∧
    (get_user_statistik c6db c6uid
      { filter := some strDaily, start_date := none, end_date := none,
        year := some 2024, month := some 13 } ⟨19783⟩).isSome = true ∧
    (get_user_statistik c6db c6uid
      { filter := none, start_date := none, end_date := none,
        year := some 2023, month := some 5 } ⟨19783⟩).isSome = true := by
  refine ⟨?_, ?_, ?_, ?_, ?_⟩
  · have h := c6_theorem c6db c6uid c6q ⟨19783⟩
    have h2 : ¬ ((get_user_statistik c6db c6uid c6q ⟨19783⟩).isSome = true) := by
      rw [h]
      decide
    simpa using h2
  · have h := c6_theorem c6db c6uid c6qYear ⟨19783⟩
    have h2 : ¬ ((get_user_statistik c6db c6uid c6qYear ⟨19783⟩).isSome = true) := by
      rw [h]
      decide
    simpa using h2
  · have h := c6_theorem c6db c6uid c6qMaxDec ⟨19783⟩
    have h2 : ¬ ((get_user_statistik c6db c6uid c6qMaxDec ⟨19783⟩).isSome = true) := by
      rw [h]
      decide
    simpa using h2
  · exact (c6_theorem c6db c6uid
      { filter := some strDaily, start_date := none, end_date := none,
        year := some 2024, month := some 13 } ⟨19783⟩).mpr (Or.inl rfl)
  · exact (c6_theorem c6db c6uid
      { filter := none, start_date := none, end_date := none,
        year := some 2023, month := some 5 } ⟨19783⟩).mpr
      (Or.inr (Or.inr (by decide)))

/-! Claim C7: the weekly window. -/

/-- C7: with filter=weekly and no explicit date overrides, the resolved window
is [today - 7 days, today] — an inclusive range of exactly 8 calendar days —
and the summary's average per day is the window total divided by that
inclusive day count. -/
theorem c7_theorem (db : DB) (uid : String) (q : StatistikQuery) (today : Date)
    (hf : q.filter = some strWeekly) (hs : q.start_date = none)
    (he : q.end_date = none) :
    ∃ r, get_user_statistik db uid q today = some r ∧
      r.final_start = today.subDays 7 ∧ r.final_end = today ∧
      r.final_end.days - r.final_start.days + 1 = 8 ∧
      r.data.ringkasan.rata_rata_harian =
        (r.data.ringkasan.total_pengeluaran : ℚ) / 8 := by
  have hrw : resolveWindow q today = some (today.subDays 7, today) := by
    unfold resolveWindow
    rw [if_neg (by rw [hf]; decide), if_pos (by rw [hf]; decide)]
  simp only [get_user_statistik, hrw, hs, he]
  have hdd : today.days - (today.subDays 7).days + 1 = 8 := by
    simp only [Date.subDays]
    omega
  refine ⟨_, rfl, rfl, rfl, hdd, ?_⟩
  rw [hdd, if_pos (by norm_num : (0 : Int) < 8)]
  rw [Rat.mkRat_eq_div]
  have h8 : (Int.toNat 8) = 8 := rfl
  rw [h8]
  norm_num

/-- C7 (witness): the weekly characterization instantiated on a concrete query
and a concrete today. -/
theorem c7_witness :
    ∃ r, get_user_statistik c6db c7uid c7q ⟨19783⟩ = some r ∧
      r.final_start = Date.subDays ⟨19783⟩ 7 ∧ r.final_end = ⟨19783⟩ ∧
      r.final_end.days - r.final_start.days + 1 = 8 ∧
      r.data.ringkasan.rata_rata_harian =
        (r.data.ringkasan.total_pengeluaran : ℚ) / 8 :=
  c7_theorem c6db c7uid c7q ⟨19783⟩ rfl rfl rfl

/-! Claim C8: the category breakdown. -/

theorem c8_core (db : DB) (uid : String) (fs fe : Date) :
    (∀ c ∈ db.categories,
      ∃ e ∈ sortBy pengeluaranLe
          (db.categories.map (mkPengeluaranKategori db uid fs fe (windowSum db uid fs fe))),
        e.kategori_nama = c.nama ∧
        e.total_pengeluaran = catWindowSum db uid c.id fs fe) ∧
    (windowSum db uid fs fe = 0 →
      ∀ e ∈ sortBy pengeluaranLe
          (db.categories.map (mkPengeluaranKategori db uid fs fe (windowSum db uid fs fe))),
        e.persentase = 0) ∧
    (0 < windowSum db uid fs fe →
      ∀ e ∈ sortBy pengeluaranLe
          (db.categories.map (mkPengeluaranKategori db uid fs fe (windowSum db uid fs fe))),
        ∃ c ∈ db.categories, e.kategori_nama = c.nama ∧
          e.persentase =
            pgRound2Frac (catWindowSum db uid c.id fs fe * 100) (windowSum db uid fs fe)) := by
  refine ⟨?_, ?_, ?_⟩
  · intro c hc
    exact ⟨mkPengeluaranKategori db uid fs fe (windowSum db uid fs fe) c,
      (mem_sortBy _ _ _).mpr (List.mem_map_of_mem _ hc), rfl, rfl⟩
  · intro hT e he
    obtain ⟨c, hc, hec⟩ := List.mem_map.mp ((mem_sortBy _ _ _).mp he)
    subst hec
    simp only [mkPengeluaranKategori]
    rw [if_neg (by omega)]
  · intro hT e he
    obtain ⟨c, hc, hec⟩ := List.mem_map.mp ((mem_sortBy _ _ _).mp he)
    subst hec
    refine ⟨c, hc, rfl, ?_⟩
    simp only [mkPengeluaranKategori]
    rw [if_pos hT]

/-- C8 (counterexample): the claim as stated is false.  On a window whose
total spend is 3 split 1 and 2 between the two categories, the category with
sum 1 reports the percentage 33.33 (the two-decimal rounding of 100/3), which
is not equal to 1 * 100 / 3. -/
theorem c8_counterexample :
    get_user_statistik c8db c8uid c8q ⟨0⟩ = some c8res ∧
    0 < c8res.data.ringkasan.total_pengeluaran ∧
    ∃ e ∈ c8res.data.pengeluaran_per_kategori,
      e.persentase ≠
        (e.total_pengeluaran * 100 : ℚ) / (c8res.data.ringkasan.total_pengeluaran : ℚ) := by
  refine ⟨by decide, by decide,
    ⟨{ kategori_nama := "A", total_pengeluaran := 1, persentase := mkRat 3333 100 },
      by decide, ?_⟩⟩
  have h3 : c8res.data.ringkasan.total_pengeluaran = 3 := by decide
  rw [h3]
  intro hc
  rw [Rat.mkRat_eq_div] at hc
  norm_num at hc

/-- C8 (amended): every registered category appears in the breakdown with its
windowed sum (including categories with zero activity); when the window's
total spend is 0 every percentage is exactly 0 (never NaN or undefined); and
when the total spend is positive each percentage is the category's windowed
sum times 100 divided by the total, ROUNDED HALF AWAY FROM ZERO TO TWO
DECIMAL PLACES (the `ROUND(..., 2)` the claim omits). -/
theorem c8_theorem (db : DB) (uid : String) (q : StatistikQuery) (today : Date)
    (r : StatistikResult) (h : get_user_statistik db uid q today = some r) :
    (∀ c ∈ db.categories, ∃ e ∈ r.data.pengeluaran_per_kategori,
      e.kategori_nama = c.nama ∧
      e.total_pengeluaran = catWindowSum db uid c.id r.final_start r.final_end) ∧
    (r.data.ringkasan.total_pengeluaran = 0 →
      ∀ e ∈ r.data.pengeluaran_per_kategori, e.persentase = 0) ∧
    (0 < r.data.ringkasan.total_pengeluaran →
      ∀ e ∈ r.data.pengeluaran_per_kategori, ∃ c ∈ db.categories,
        e.kategori_nama = c.nama ∧
        e.persentase =
          pgRound2Frac (catWindowSum db uid c.id r.final_start r.final_end * 100)
            r.data.ringkasan.total_pengeluaran) := by
  unfold get_user_statistik at h
  cases hrw : resolveWindow q today with
  | none =>
    rw [hrw] at h
    simp at h
  | some se =>
    obtain ⟨s0, e0⟩ := se
    rw [hrw] at h
    simp only [Option.some.injEq] at h
    subst h
    exact c8_core db uid _ _

/-- C8 (witness): on a window with zero total spend, both registered
categories appear and every percentage is exactly 0. -/
theorem c8_witness :
    get_user_statistik c8db c8uid c8qZero ⟨0⟩ = some c8resZero ∧
    (∀ e ∈ c8resZero.data.pengeluaran_per_kategori, e.persentase = 0) ∧
    c8resZero.data.pengeluaran_per_kategori.length = 2 := by
  have h := c8_theorem c8db c8uid c8qZero ⟨0⟩ c8resZero (by decide)
  exact ⟨by decide, h.2.1 (by decide), by decide⟩

/-! Claim C9: the dashboard lowest-positive-amount statistics. -/

theorem aggMin_getD_spec (l : List Int) :
    (l = [] → (aggMin l).getD 0 = 0) ∧
    (l ≠ [] → (aggMin l).getD 0 ∈ l ∧ ∀ x ∈ l, (aggMin l).getD 0 ≤ x) := by
  constructor
  · intro h
    subst h
    rfl
  · intro h
    cases hl : aggMin l with
    | none => exact absurd (aggMin_eq_none.mp hl) h
    | some a =>
      simp only [Option.getD_some]
      exact ⟨aggMin_mem hl, aggMin_le hl⟩

theorem positiveAmountsIn_pos {db : DB} {uid : String} {s e : Date} :
    ∀ x ∈ positiveAmountsIn db uid s e, 0 < x := by
  intro x hx
  obtain ⟨t, ht, hxt⟩ := List.mem_map.mp hx
  have := List.of_mem_filter ht
  rw [← hxt]
  simpa using this

/-- C9: the dashboard's terendah (lowest) statistics for today and for the
current month are the minimum over the strictly positive transaction amounts
of the respective window — zero-valued transactions are excluded — and 0 is
returned exactly when no positive transaction exists; a returned minimum is
itself positive.  (The windows are those of the user the dashboard actually
serves, i.e. after the fallback substitution.) -/
theorem c9_theorem (db : DB) (uid : String) (today : Date) :
    ((positiveAmountsIn db (actualDashboardUser db uid) today today = [] →
        (get_dashboard_data db uid today).terendah_hari_ini = 0) ∧
      (positiveAmountsIn db (actualDashboardUser db uid) today today ≠ [] →
        (get_dashboard_data db uid today).terendah_hari_ini ∈
            positiveAmountsIn db (actualDashboardUser db uid) today today ∧
          (∀ x ∈ positiveAmountsIn db (actualDashboardUser db uid) today today,
            (get_dashboard_data db uid today).terendah_hari_ini ≤ x) ∧
          0 < (get_dashboard_data db uid today).terendah_hari_ini)) ∧
    ((positiveAmountsIn db (actualDashboardUser db uid) (startOfMonth today) today = [] →
        (get_dashboard_data db uid today).terendah_bulan_ini = 0) ∧
      (positiveAmountsIn db (actualDashboardUser db uid) (startOfMonth today) today ≠ [] →
        (get_dashboard_data db uid today).terendah_bulan_ini ∈
            positiveAmountsIn db (actualDashboardUser db uid) (startOfMonth today) today ∧
          (∀ x ∈ positiveAmountsIn db (actualDashboardUser db uid) (startOfMonth today) today,
            (get_dashboard_data db uid today).terendah_bulan_ini ≤ x) ∧
          0 < (get_dashboard_data db uid today).terendah_bulan_ini)) := by
  have hday : (get_dashboard_data db uid today).terendah_hari_ini =
      (aggMin (positiveAmountsIn db (actualDashboardUser db uid) today today)).getD 0 := rfl
  have hmon : (get_dashboard_data db uid today).terendah_bulan_ini =
      (aggMin (positiveAmountsIn db (actualDashboardUser db uid)
        (startOfMonth today) today)).getD 0 := rfl
  constructor
  · constructor
    · intro h
      rw [hday]
      exact (aggMin_getD_spec _).1 h
    · intro h
      have hs := (aggMin_getD_spec _).2 h
      rw [hday]
      exact ⟨hs.1, hs.2, positiveAmountsIn_pos _ hs.1⟩
  · constructor
    · intro h
      rw [hmon]
      exact (aggMin_getD_spec _).1 h
    · intro h
      have hs := (aggMin_getD_spec _).2 h
      rw [hmon]
      exact ⟨hs.1, hs.2, positiveAmountsIn_pos _ hs.1⟩

/-- C9 (witness): with today's transaction amounts {0, 0, 7}, the lowest-today
value is 7 (the minimum of the positive amounts), not 0. -/
theorem c9_witness :
    (get_dashboard_data c9db c9uid c9today).terendah_hari_ini ∈
        positiveAmountsIn c9db (actualDashboardUser c9db c9uid) c9today c9today ∧
    (get_dashboard_data c9db c9uid c9today).terendah_hari_ini = 7 := by
  have h := ((c9_theorem c9db c9uid c9today).1).2 (by decide)
  exact ⟨h.1, by decide⟩

end Savior
